import Mathlib

/-!
Verification of the spread-probability calculator engine (`src/lib/calculator.js`).

The engine is a batch of pure numeric passes over two daily bar series.  We
embed it shallowly: JS numbers become `ℚ` (prices, volumes) or `Int`/`Nat`
(tick counts, indices), `null`/`NaN`-able values become `Option`, and the
external numeric primitives the spec declares out of scope (jStat and
`Math.sqrt`) become explicit parameters (`Prims`).  JS coercions that matter
(`null` coercing to `0` in comparisons and arithmetic, `x || y` falsy
fallback, `Math.round` as floor of `x + 1/2`) are modelled explicitly where
the source relies on them.
-/

set_option maxHeartbeats 1000000

namespace SpreadCalc

/-- A leg bar after CSV ingestion: `datetime` as milliseconds since the epoch,
`close` and `volume`.  The other OHLC columns are ignored by the engine. -/
structure RawBar where
  time : Int
  close : ℚ
  volume : ℚ
deriving Repr, DecidableEq

/-- Engine configuration (`DEFAULT_CONFIG` keys). -/
structure Config where
  tickSize : ℚ
  tickLevels : List Int
  outlierMadThreshold : ℚ
  minOutlierTicks : ℚ
  maxDaysGap : Int
  strictDailyOnly : Bool
  minExpandingWindow : Nat
  minConditionalSamples : Nat
  swingWindow : Nat
  topNLevels : Nat
  srMinDistanceTicks : Int
  srLookbackDays : Int
  bootstrapIterations : Nat
deriving Repr, DecidableEq

/-- `DEFAULT_CONFIG` from the source. -/
def defaultConfig : Config :=
  { tickSize := 5/1000
    tickLevels := [1, 2, 3]
    outlierMadThreshold := 4
    minOutlierTicks := 10
    maxDaysGap := 3
    strictDailyOnly := false
    minExpandingWindow := 20
    minConditionalSamples := 30
    swingWindow := 5
    topNLevels := 3
    srMinDistanceTicks := 4
    srLookbackDays := 60
    bootstrapIterations := 500 }

/-- External numeric primitives the engine delegates to (jStat and
`Math.sqrt`); the spec treats them as out-of-scope collaborators, so the
embedding takes them as parameters. -/
structure Prims where
  sqrtq : ℚ → ℚ
  z975 : ℚ
  skewq : List ℚ → ℚ
  kurtq : List ℚ → ℚ
  pvalq : List ℚ → ℚ

/-- A trivial instantiation of the external primitives, used to evaluate the
embedding at concrete inputs in witnesses. -/
def prims0 : Prims :=
  { sqrtq := fun _ => 0, z975 := 0, skewq := fun _ => 0, kurtq := fun _ => 0,
    pvalq := fun _ => 0 }

/-- JS `ToNumber` coercion of a nullable integer (`null` coerces to `0` in
comparisons such as `null >= n`). -/
def jsNumZ (v : Option Int) : Int := v.getD 0

/-- The same coercion into `ℚ`, for arithmetic contexts. -/
def jsNumQ (v : Option Int) : ℚ := ((v.getD 0 : Int) : ℚ)

/-- `Math.round`: round half up, i.e. the floor of `x + 1/2`. -/
def jsRound (q : ℚ) : Int := ⌊q + 1/2⌋

def msPerDay : Int := 86400000

/-- `getDateKey`: the `YYYY-MM-DD` part of `toISOString`, i.e. the (floored)
epoch-day number of the timestamp. -/
def dayOf (t : Int) : Int := Int.fdiv t msPerDay

/-- `daysBetween` (src lines 134-137). -/
def daysBetween (t1 t2 : Int) : Int := jsRound (((t2 - t1 : Int) : ℚ) / (msPerDay : ℚ))

/-- Insert into an ascending list before the first strictly greater element.
Folding it from the right gives a stable ascending sort, matching JS
`Array.prototype.sort` with the numeric comparator `(a, b) => a - b`. -/
def insertAsc (lt : α → α → Bool) (x : α) : List α → List α
  | [] => [x]
  | y :: ys => if lt y x then y :: insertAsc lt x ys else x :: y :: ys

/-- Stable ascending sort by the strict comparison `lt`. -/
def sortAsc (lt : α → α → Bool) (l : List α) : List α := l.foldr (insertAsc lt) []

/-- The median step of `expandingMedian` (src lines 162-165): sort ascending,
take the middle element for odd length, else the mean of the two middle
elements. -/
def medianOfList (l : List ℚ) : ℚ :=
  let s := sortAsc (fun a b => decide (a < b)) l
  let mid := l.length / 2
  if l.length % 2 = 1 then s.getD mid 0 else (s.getD (mid - 1) 0 + s.getD mid 0) / 2

/-- `expandingMedian` (src lines 156-169) as a function of the index, `none`
modelling the `NaN` fill.  The window filter `!isNaN(v)` keeps the `null`
tickMove of the first merged row (JS `isNaN(null)` is `false`), and that
`null` then sorts and averages as `0`; `jsNumQ` makes the coercion explicit. -/
def expandingMedian (arr : List (Option Int)) (minPeriods : Nat) (i : Nat) : Option ℚ :=
  if minPeriods - 1 ≤ i ∧ i < arr.length then
    let window := (arr.take (i + 1)).map jsNumQ
    if minPeriods ≤ window.length then some (medianOfList window) else none
  else none

/-- The expanding MAD (src lines 278-289): absolute deviations of the non-null
tickMoves (`v !== null && !isNaN(v)`) from the expanding median, scaled by
1.4826; `none` models the `NaN` fill. -/
def rollingMAD (arr : List (Option Int)) (minPeriods : Nat) (i : Nat) : Option ℚ :=
  if minPeriods - 1 ≤ i ∧ i < arr.length then
    let window := (arr.take (i + 1)).filterMap id
    if minPeriods ≤ window.length then
      match expandingMedian arr minPeriods i with
      | some med => some (medianOfList (window.map (fun (v : Int) => |(v : ℚ) - med|)) * (14826/10000))
      | none => none
    else none
  else none

/-- The value the expanding median takes at a non-warm-up index `i`: the
median of the tickMove entries at positions `[0, i]`, the first row's `null`
participating as `0` (the JS coercion kept by the `!isNaN` filter). -/
def medAt (tms : List (Option Int)) (i : Nat) : ℚ :=
  medianOfList ((tms.take (i + 1)).map jsNumQ)

/-- The value the expanding MAD takes at a non-warm-up index `i`: 1.4826 times
the median of the absolute deviations of the non-null tickMove entries at
positions `[0, i]` from `medAt`. -/
def madAt (tms : List (Option Int)) (i : Nat) : ℚ :=
  medianOfList (((tms.take (i + 1)).filterMap id).map (fun (v : Int) => |(v : ℚ) - medAt tms i|)) *
    (14826/10000)

/-- The expanding median exactly as the claim words it: over the (non-null)
tickMove values in positions `[0, i]`; used to compare the claim against the
code. -/
def specMedAt (tms : List (Option Int)) (i : Nat) : ℚ :=
  medianOfList (((tms.take (i + 1)).filterMap id).map (fun (v : Int) => (v : ℚ)))

/-- The expanding MAD exactly as the claim words it: the median of absolute
deviations of the tickMove values in `[0, i]` from `specMedAt`, scaled by
1.4826. -/
def specMadAt (tms : List (Option Int)) (i : Nat) : ℚ :=
  medianOfList (((tms.take (i + 1)).filterMap id).map (fun (v : Int) => |(v : ℚ) - specMedAt tms i|)) *
    (14826/10000)

/-- One merged row right after the inner join (src lines 224-231). -/
structure MergedRaw where
  time : Int
  dateKey : Int
  close1 : ℚ
  close2 : ℚ
  volume1 : ℚ
  volume2 : ℚ
deriving Repr, DecidableEq

/-- A merged bar with all fields the passes write.  Fields a pass has not yet
assigned hold their JS-`undefined` stand-in (`none` / `false`). -/
structure Bar where
  rowId : Nat
  time : Int
  dateKey : Int
  close1 : ℚ
  close2 : ℚ
  volume1 : ℚ
  volume2 : ℚ
  spreadClose : ℚ
  spreadVolume : ℚ
  priceChange : Option ℚ
  tickMove : Option Int
  absTickMove : Option Int
  daysGap : Option Int
  isConsecutive : Bool
  isWarmup : Bool
  isOutlier : Bool
  tickIdx : Option Int
  isSwingHigh : Option Bool
  isSwingLow : Option Bool
deriving Repr, DecidableEq

instance : Inhabited Bar :=
  ⟨{ rowId := 0, time := 0, dateKey := 0, close1 := 0, close2 := 0, volume1 := 0,
     volume2 := 0, spreadClose := 0, spreadVolume := 0, priceChange := none,
     tickMove := none, absTickMove := none, daysGap := none, isConsecutive := false,
     isWarmup := false, isOutlier := false, tickIdx := none, isSwingHigh := none,
     isSwingLow := none }⟩

/-- Insert-or-update in an association list, keeping the position of an
existing key: `Map.set` with JS insertion-order semantics. -/
def upsert (k : Int) (v : RawBar) : List (Int × RawBar) → List (Int × RawBar)
  | [] => [(k, v)]
  | (k', v') :: rest => if k' = k then (k, v) :: rest else (k', v') :: upsert k v rest

/-- Sort one leg by datetime and de-duplicate per calendar day, keeping the
chronologically last bar of each day (src lines 201-214). -/
def dedupByDay (data : List RawBar) : List (Int × RawBar) :=
  (sortAsc (fun a b => decide (a.time < b.time)) data).foldl
    (fun m r => upsert (dayOf r.time) r m) []

/-- First-match association-list lookup (`Map.get`; keys are unique after
de-duplication). -/
def lookupDay (k : Int) : List (Int × RawBar) → Option RawBar
  | [] => none
  | (k', v) :: rest => if k' = k then some v else lookupDay k rest

/-- Inner join of the two de-duplicated legs on date key, in leg-1 order, then
sorted by datetime (src lines 217-236). -/
def mergedRows (data1 data2 : List RawBar) : List MergedRaw :=
  let df1 := dedupByDay data1
  let df2 := dedupByDay data2
  let merged := df1.filterMap (fun p =>
    (lookupDay p.1 df2).map (fun r2 =>
      { time := p.2.time, dateKey := p.1, close1 := p.2.close, close2 := r2.close,
        volume1 := p.2.volume, volume2 := r2.volume }))
  sortAsc (fun a b => decide (a.time < b.time)) merged

/-- The spread / tick-move pass (src lines 239-260): walk the merged rows
carrying the previous row's spread close and timestamp, assigning `rowId`
sequentially.  Fields written by later passes are initialised to their
pre-assignment defaults. -/
def rawBarsAux (tickSize : ℚ) : Option (ℚ × Int) → Nat → List MergedRaw → List Bar
  | _, _, [] => []
  | prev, idx, r :: rest =>
    let sc := r.close1 - r.close2
    let bar : Bar :=
      match prev with
      | none =>
        { rowId := idx, time := r.time, dateKey := r.dateKey,
          close1 := r.close1, close2 := r.close2, volume1 := r.volume1, volume2 := r.volume2,
          spreadClose := sc, spreadVolume := min r.volume1 r.volume2,
          priceChange := none, tickMove := none, absTickMove := none, daysGap := none,
          isConsecutive := false, isWarmup := false, isOutlier := false,
          tickIdx := none, isSwingHigh := none, isSwingLow := none }
      | some (psc, pt) =>
        let pc := sc - psc
        let tm := jsRound (pc / tickSize)
        { rowId := idx, time := r.time, dateKey := r.dateKey,
          close1 := r.close1, close2 := r.close2, volume1 := r.volume1, volume2 := r.volume2,
          spreadClose := sc, spreadVolume := min r.volume1 r.volume2,
          priceChange := some pc, tickMove := some tm, absTickMove := some |tm|,
          daysGap := some (daysBetween pt r.time),
          isConsecutive := false, isWarmup := false, isOutlier := false,
          tickIdx := none, isSwingHigh := none, isSwingLow := none }
    bar :: rawBarsAux tickSize (some (sc, r.time)) (idx + 1) rest

def rawBars (tickSize : ℚ) (rows : List MergedRaw) : List Bar :=
  rawBarsAux tickSize none 0 rows

/-- Map with the element's position, starting at `i`. -/
def mapWithIndex (f : Nat → α → β) : Nat → List α → List β
  | _, [] => []
  | i, x :: xs => f i x :: mapWithIndex f (i + 1) xs

/-- The consecutive-day pass (src lines 263-270): `maxGap` widens by 2 unless
`strictDailyOnly`; the first row is consecutive by definition. -/
def markConsecutive (cfg : Config) (bars : List Bar) : List Bar :=
  let maxGap : Int := if cfg.strictDailyOnly then cfg.maxDaysGap else cfg.maxDaysGap + 2
  mapWithIndex (fun idx b =>
    { b with isConsecutive :=
        if idx = 0 then true
        else match b.daysGap with
          | some g => decide (g ≤ maxGap)
          | none => false }) 0 bars

/-- `isWarmup` (src line 293): `NaN`-ness of either rolling statistic. -/
def warmupFlag (tms : List (Option Int)) (minP i : Nat) : Bool :=
  (expandingMedian tms minP i).isNone || (rollingMAD tms minP i).isNone

/-- `isOutlier` (src lines 296-304): `false` for warm-up rows or a null
tickMove; otherwise the `rollingMAD[idx] || minOutlierTicks` falsy fallback
replaces a zero MAD by `minOutlierTicks` before the `max`, and the row is an
outlier when `|tickMove - median|` strictly exceeds the threshold. -/
def outlierFlag (cfg : Config) (tms : List (Option Int)) (i : Nat) (tm : Option Int) : Bool :=
  if warmupFlag tms cfg.minExpandingWindow i || tm == none then false
  else
    let med := (expandingMedian tms cfg.minExpandingWindow i).getD 0
    let mad := (rollingMAD tms cfg.minExpandingWindow i).getD 0
    let threshold := cfg.outlierMadThreshold *
      max (if mad = 0 then cfg.minOutlierTicks else mad) cfg.minOutlierTicks
    decide (threshold < |jsNumQ tm - med|)

/-- The warm-up / outlier pass (src lines 272-305). -/
def markOutliers (cfg : Config) (bars : List Bar) : List Bar :=
  let tms := bars.map (fun b => b.tickMove)
  mapWithIndex (fun i b =>
    { b with
        isWarmup := warmupFlag tms cfg.minExpandingWindow i,
        isOutlier := outlierFlag cfg tms i b.tickMove }) 0 bars

/-- `dfRaw` (src lines 310-312). -/
def dfRawOf (bars : List Bar) : List Bar :=
  bars.filter (fun r => r.isConsecutive && decide (r.tickMove ≠ none))

/-- `dfValid` (src lines 314-316). -/
def dfValidOf (bars : List Bar) : List Bar :=
  bars.filter (fun r => !r.isOutlier && !r.isWarmup && r.isConsecutive &&
    decide (r.tickMove ≠ none))

def listSum (l : List ℚ) : ℚ := l.foldl (· + ·) 0

/-- `jStat.mean` (sum over length; never applied to an empty list by the
engine except where the source itself would produce `NaN`). -/
def meanQ (l : List ℚ) : ℚ := listSum l / l.length

/-- The square of `jStat.stdev(l, true)` (sample variance, `n - 1`
normalisation); the square root itself is the external `sqrtq`. -/
def sampleVarQ (l : List ℚ) : ℚ :=
  if l.length < 2 then 0
  else listSum (l.map (fun x => (x - meanQ l) ^ 2)) / ((l.length : ℚ) - 1)

def listMinQ : List ℚ → ℚ
  | [] => 0
  | x :: xs => xs.foldl min x

def listMaxQ : List ℚ → ℚ
  | [] => 0
  | x :: xs => xs.foldl max x

structure SpreadStats where
  mean : ℚ
  std : ℚ
  min : ℚ
  max : ℚ
deriving Repr, DecidableEq

/-- The model `loadAndMerge` leaves on the calculator: the merged bars plus
the stored aggregates. -/
structure Model where
  bars : List Bar
  nValid : Nat
  nRaw : Nat
  nOutliers : Nat
  nWarmup : Nat
  totalVolume : ℚ
  dateStart : Option Int
  dateEnd : Option Int
  currentPrice : Option ℚ
  spreadStats : SpreadStats
deriving Repr, DecidableEq

/-- The merged bar series: join, spread pass, consecutive pass, outlier
pass. -/
def barsOf (cfg : Config) (data1 data2 : List RawBar) : List Bar :=
  markOutliers cfg (markConsecutive cfg (rawBars cfg.tickSize (mergedRows data1 data2)))

/-- `loadAndMerge` (src lines 199-340).  `spreadStats.std` is jStat's sample
standard deviation, delegated to the external `sqrtq`; the empty-merge branch
returns the zeroed aggregates of the source. -/
def loadAndMerge (prims : Prims) (cfg : Config) (data1 data2 : List RawBar) : Model :=
  let merged := barsOf cfg data1 data2
  let raw := dfRawOf merged
  let valid := dfValidOf merged
  let spreadCloses := merged.map (fun r => r.spreadClose)
  { bars := merged
    nValid := valid.length
    nRaw := raw.length
    nOutliers := (merged.filter (fun r => r.isOutlier)).length
    nWarmup := (merged.filter (fun r => r.isWarmup)).length
    totalVolume := listSum (merged.map (fun r => r.spreadVolume))
    dateStart := merged.head?.map (fun r => r.time)
    dateEnd := merged.getLast?.map (fun r => r.time)
    currentPrice := merged.getLast?.map (fun r => r.spreadClose)
    spreadStats :=
      if spreadCloses.length = 0 then { mean := 0, std := 0, min := 0, max := 0 }
      else { mean := meanQ spreadCloses, std := prims.sqrtq (sampleVarQ spreadCloses),
             min := listMinQ spreadCloses, max := listMaxQ spreadCloses } }

/-! ### Shared numeric helpers of the analysis passes -/

/-- `wilsonCI` (src lines 174-182) over `ℚ`, with `z = jStat.normal.inv(0.975)`
and `Math.sqrt` supplied by the external primitives. -/
def wilsonCIq (prims : Prims) (successes trials : Nat) : ℚ × ℚ :=
  if trials = 0 then (0, 0) else
  let z := prims.z975
  let p : ℚ := successes / trials
  let denom := 1 + z ^ 2 / trials
  let center := (p + z ^ 2 / (2 * trials)) / denom
  let margin := (z / denom) *
    prims.sqrtq (p * (1 - p) / trials + z ^ 2 / (4 * trials * trials))
  (max 0 (center - margin), min 1 (center + margin))

/-! ### Probability engine (`_computeProbs`, src lines 346-404) -/

/-- `tickMove === 0` count. -/
def countZeroIn (data : List Bar) : Nat := data.countP (fun r => r.tickMove == some 0)

/-- `absTickMove === nticks` count. -/
def countExactIn (data : List Bar) (n : Int) : Nat :=
  data.countP (fun r => r.absTickMove == some n)

/-- `absTickMove >= nticks` count (`null` coerces to 0). -/
def countAtLeastIn (data : List Bar) (n : Int) : Nat :=
  data.countP (fun r => decide (n ≤ jsNumZ r.absTickMove))

/-- `tickMove >= nticks` count. -/
def countUpIn (data : List Bar) (n : Int) : Nat :=
  data.countP (fun r => decide (n ≤ jsNumZ r.tickMove))

/-- `tickMove <= -nticks` count. -/
def countDownIn (data : List Bar) (n : Int) : Nat :=
  data.countP (fun r => decide (jsNumZ r.tickMove ≤ -n))

structure TickLevelProbs where
  tickValue : ℚ
  countExact : Nat
  probExact : ℚ
  probExactCI : ℚ × ℚ
  countAtLeast : Nat
  probAtLeast : ℚ
  probAtLeastCI : ℚ × ℚ
  countUp : Nat
  probUpAtLeast : ℚ
  probUpCI : ℚ × ℚ
  countDown : Nat
  probDownAtLeast : ℚ
  probDownCI : ℚ × ℚ
deriving Repr, DecidableEq

structure ZeroProbs where
  countExact : Nat
  probExact : ℚ
  probExactCI : ℚ × ℚ
deriving Repr, DecidableEq

structure ProbsResult where
  n : Nat
  zero : Option ZeroProbs
  levels : List (Int × TickLevelProbs)
deriving Repr, DecidableEq

/-- `_computeProbs` (src lines 346-404).  The source accumulates all counters
in one pass; counting each predicate separately is the same accumulation. -/
def computeProbs (prims : Prims) (cfg : Config) (data : List Bar) : ProbsResult :=
  if data.length = 0 then { n := 0, zero := none, levels := [] } else
  { n := data.length
    zero := some
      { countExact := countZeroIn data
        probExact := (countZeroIn data : ℚ) / data.length
        probExactCI := wilsonCIq prims (countZeroIn data) data.length }
    levels := cfg.tickLevels.map (fun nticks =>
      (nticks,
       { tickValue := (nticks : ℚ) * cfg.tickSize
         countExact := countExactIn data nticks
         probExact := (countExactIn data nticks : ℚ) / data.length
         probExactCI := wilsonCIq prims (countExactIn data nticks) data.length
         countAtLeast := countAtLeastIn data nticks
         probAtLeast := (countAtLeastIn data nticks : ℚ) / data.length
         probAtLeastCI := wilsonCIq prims (countAtLeastIn data nticks) data.length
         countUp := countUpIn data nticks
         probUpAtLeast := (countUpIn data nticks : ℚ) / data.length
         probUpCI := wilsonCIq prims (countUpIn data nticks) data.length
         countDown := countDownIn data nticks
         probDownAtLeast := (countDownIn data nticks : ℚ) / data.length
         probDownCI := wilsonCIq prims (countDownIn data nticks) data.length })) }

/-! ### Volume-weighted probabilities (src lines 424-461) -/

structure VolWeighted where
  volWeightedAtLeast : ℚ
  volWeightedUp : ℚ
  volWeightedDown : ℚ
deriving Repr, DecidableEq

/-- `calculateVolumeWeighted`: accumulate `spreadVolume` instead of counts,
normalised by total volume; empty result for no rows or zero volume. -/
def calculateVolumeWeighted (cfg : Config) (raw : List Bar) : List (Int × VolWeighted) :=
  if raw.length = 0 then [] else
  let totalVol := listSum (raw.map (fun r => r.spreadVolume))
  if totalVol = 0 then [] else
  cfg.tickLevels.map (fun nticks =>
    (nticks,
     { volWeightedAtLeast := listSum (raw.map (fun r =>
         if nticks ≤ jsNumZ r.absTickMove then r.spreadVolume else 0)) / totalVol
       volWeightedUp := listSum (raw.map (fun r =>
         if nticks ≤ jsNumZ r.tickMove then r.spreadVolume else 0)) / totalVol
       volWeightedDown := listSum (raw.map (fun r =>
         if jsNumZ r.tickMove ≤ -nticks then r.spreadVolume else 0)) / totalVol }))

/-! ### Bootstrap (`seededRandom` + `calculateBootstrap`, src lines 144-151,
467-533) -/

def u32 (n : Nat) : Nat := n % 4294967296

/-- `Math.imul` on 32-bit values (bit pattern of the product). -/
def jsImul (a b : Nat) : Nat := u32 (a * b)

/-- One step of the mulberry32 generator (src lines 144-151), on unsigned
32-bit bit patterns; the running `seed` accumulator grows by `0x6D2B79F5`
per call (exact as long as it stays below 2^53, where JS addition is exact)
and is truncated to 32 bits at the first bitwise operation. -/
def mulberryStep (seedAcc : Nat) : Nat × ℚ :=
  let seed := seedAcc + 0x6D2B79F5
  let t0 := u32 seed
  let t1 := jsImul (Nat.xor t0 (t0 >>> 15)) (Nat.lor t0 1)
  let t2 := u32 (Nat.xor t1 (u32 (t1 + jsImul (Nat.xor t1 (t1 >>> 7)) (Nat.lor t1 61))))
  let r := Nat.xor t2 (t2 >>> 14)
  (seed, (u32 r : ℚ) / 4294967296)

/-- `Math.floor(rng() * n)` (src line 500). -/
def drawIndex (st : Nat) (n : Nat) : Nat × Nat :=
  let (st2, r) := mulberryStep st
  (st2, (⌊r * (n : ℚ)⌋).toNat)

/-- The percentile helper `pct` (src lines 481-487): linear interpolation at
index `p * (length - 1)`; `0.025`/`0.975` are taken as the exact rationals. -/
def pct (arr : List ℚ) (p : ℚ) : ℚ :=
  let idx : ℚ := p * ((arr.length : ℚ) - 1)
  let lower := ⌊idx⌋
  let upper := ⌈idx⌉
  if lower = upper then arr.getD lower.toNat 0
  else arr.getD lower.toNat 0 * ((upper : ℚ) - idx) + arr.getD upper.toNat 0 * (idx - (lower : ℚ))

/-- The inner resample loop (src lines 499-504): draw `k` more indices,
counting `|move| >= n`, `move >= n`, `move <= -n`. -/
def bootSample (tms ams : List (Option Int)) (n : Nat) (nticks : Int) :
    Nat → Nat → Nat × Nat × Nat → Nat × (Nat × Nat × Nat)
  | 0, st, acc => (st, acc)
  | k + 1, st, acc =>
    let (st2, idx) := drawIndex st n
    let a1 := if nticks ≤ jsNumZ (ams.getD idx none) then acc.1 + 1 else acc.1
    let a2 := if nticks ≤ jsNumZ (tms.getD idx none) then acc.2.1 + 1 else acc.2.1
    let a3 := if jsNumZ (tms.getD idx none) ≤ -nticks then acc.2.2 + 1 else acc.2.2
    bootSample tms ams n nticks k st2 (a1, a2, a3)

/-- The iteration loop (src lines 496-509): push the three fractions per
iteration. -/
def bootIters (tms ams : List (Option Int)) (n : Nat) (nticks : Int) :
    Nat → Nat → List ℚ × List ℚ × List ℚ → Nat × (List ℚ × List ℚ × List ℚ)
  | 0, st, acc => (st, acc)
  | k + 1, st, acc =>
    let (st2, counts) := bootSample tms ams n nticks n st (0, 0, 0)
    bootIters tms ams n nticks k st2
      (acc.1 ++ [(counts.1 : ℚ) / n], acc.2.1 ++ [(counts.2.1 : ℚ) / n],
       acc.2.2 ++ [(counts.2.2 : ℚ) / n])

structure BootStat where
  mean : ℚ
  ciLo : ℚ
  ciHi : ℚ
deriving Repr, DecidableEq

structure BootLevel where
  abs : BootStat
  up : BootStat
  down : BootStat
deriving Repr, DecidableEq

/-- `calculateBootstrap` (src lines 467-533): one seeded generator shared
across all tick levels in configuration order; per level, sort the
per-iteration fractions and report mean and the 2.5/97.5 percentile
interval. -/
def calculateBootstrap (cfg : Config) (nIter : Nat) (seed : Nat) (valid : List Bar) :
    List (Int × BootLevel) :=
  if valid.length = 0 then [] else
  let n := valid.length
  let tms := valid.map (fun r => r.tickMove)
  let ams := valid.map (fun r => r.absTickMove)
  (cfg.tickLevels.foldl (fun (acc : Nat × List (Int × BootLevel)) nticks =>
    let (st2, lists) := bootIters tms ams n nticks nIter acc.1 ([], [], [])
    let sa := sortAsc (fun a b => decide (a < b)) lists.1
    let su := sortAsc (fun a b => decide (a < b)) lists.2.1
    let sd := sortAsc (fun a b => decide (a < b)) lists.2.2
    (st2, acc.2 ++ [(nticks,
      { abs := { mean := meanQ sa, ciLo := pct sa (1/40), ciHi := pct sa (39/40) }
        up := { mean := meanQ su, ciLo := pct su (1/40), ciHi := pct su (39/40) }
        down := { mean := meanQ sd, ciLo := pct sd (1/40), ciHi := pct sd (39/40) } })]))
    (seed, [])).2

/-! ### Conditional transitions (`calculateConditional`, src lines 538-583) -/

/-- The transition builder (src lines 544-555): ordered pairs of tickMoves of
positionally adjacent `validSet` entries whose original `rowId`s differ by
exactly 1. -/
def buildTransitions : List Bar → List (Option Int × Option Int)
  | curr :: next :: rest =>
    (if (next.rowId : Int) - (curr.rowId : Int) = 1
      then [(curr.tickMove, next.tickMove)] else [])
      ++ buildTransitions (next :: rest)
  | _ => []

/-- Transitions after an UP move (`t.tickMove > 0`). -/
def upTransOf (valid : List Bar) : List (Option Int × Option Int) :=
  (buildTransitions valid).filter (fun t => decide (0 < jsNumZ t.1))

/-- Transitions after a DOWN move (`t.tickMove < 0`). -/
def downTransOf (valid : List Bar) : List (Option Int × Option Int) :=
  (buildTransitions valid).filter (fun t => decide (jsNumZ t.1 < 0))

structure AfterMove where
  nSamples : Nat
  probContinue : ℚ
  probReverse : ℚ
  probUnchanged : ℚ
  avgNextMove : ℚ
deriving Repr, DecidableEq

structure CondResult where
  afterUpMove : Option AfterMove
  afterDownMove : Option AfterMove
deriving Repr, DecidableEq

/-- `calculateConditional` (src lines 538-583): each branch is present only
with at least `minConditionalSamples` transitions. -/
def calculateConditional (cfg : Config) (valid : List Bar) : CondResult :=
  let upTrans := upTransOf valid
  let downTrans := downTransOf valid
  { afterUpMove :=
      if cfg.minConditionalSamples ≤ upTrans.length then
        some { nSamples := upTrans.length
               probContinue :=
                 ((upTrans.filter (fun t => decide (0 < jsNumZ t.2))).length : ℚ) /
                   upTrans.length
               probReverse :=
                 ((upTrans.filter (fun t => decide (jsNumZ t.2 < 0))).length : ℚ) /
                   upTrans.length
               probUnchanged :=
                 ((upTrans.filter (fun t => t.2 == some 0)).length : ℚ) / upTrans.length
               avgNextMove := meanQ (upTrans.map (fun t => jsNumQ t.2)) }
      else none
    afterDownMove :=
      if cfg.minConditionalSamples ≤ downTrans.length then
        some { nSamples := downTrans.length
               probContinue :=
                 ((downTrans.filter (fun t => decide (jsNumZ t.2 < 0))).length : ℚ) /
                   downTrans.length
               probReverse :=
                 ((downTrans.filter (fun t => decide (0 < jsNumZ t.2))).length : ℚ) /
                   downTrans.length
               probUnchanged :=
                 ((downTrans.filter (fun t => t.2 == some 0)).length : ℚ) / downTrans.length
               avgNextMove := meanQ (downTrans.map (fun t => jsNumQ t.2)) }
      else none }

/-! ### Streaks (`calculateStreaks`, src lines 922-1001) -/

structure StreakState where
  currentStreak : Nat
  currentDirection : Int
  upStreaks : List Nat
  downStreaks : List Nat
  consecutiveUp : Nat
  consecutiveDown : Nat
  twoUpCount : Nat
  twoDownCount : Nat
deriving Repr, DecidableEq

def initStreakState : StreakState :=
  { currentStreak := 0, currentDirection := 0, upStreaks := [], downStreaks := [],
    consecutiveUp := 0, consecutiveDown := 0, twoUpCount := 0, twoDownCount := 0 }

/-- One iteration of the streak scan (src lines 937-975); a `null` tickMove
coerces to 0 and so lands in the zero-move branch. -/
def streakStep (s : StreakState) (move : Option Int) : StreakState :=
  let v := jsNumZ move
  if 0 < v then
    let s1 : StreakState :=
      if s.currentDirection = 1 then { s with currentStreak := s.currentStreak + 1 }
      else
        let s0 : StreakState :=
          if s.currentDirection = -1 ∧ 0 < s.currentStreak then
            { s with downStreaks := s.downStreaks ++ [s.currentStreak] }
          else s
        { s0 with currentStreak := 1, currentDirection := 1 }
    let s2 : StreakState := { s1 with consecutiveUp := s1.consecutiveUp + 1 }
    let s3 : StreakState :=
      if 2 ≤ s2.consecutiveUp then { s2 with twoUpCount := s2.twoUpCount + 1 } else s2
    { s3 with consecutiveDown := 0 }
  else if v < 0 then
    let s1 : StreakState :=
      if s.currentDirection = -1 then { s with currentStreak := s.currentStreak + 1 }
      else
        let s0 : StreakState :=
          if s.currentDirection = 1 ∧ 0 < s.currentStreak then
            { s with upStreaks := s.upStreaks ++ [s.currentStreak] }
          else s
        { s0 with currentStreak := 1, currentDirection := -1 }
    let s2 : StreakState := { s1 with consecutiveDown := s1.consecutiveDown + 1 }
    let s3 : StreakState :=
      if 2 ≤ s2.consecutiveDown then { s2 with twoDownCount := s2.twoDownCount + 1 } else s2
    { s3 with consecutiveUp := 0 }
  else
    let s1 : StreakState :=
      if s.currentDirection = 1 ∧ 0 < s.currentStreak then
        { s with upStreaks := s.upStreaks ++ [s.currentStreak] }
      else s
    let s2 : StreakState :=
      if s1.currentDirection = -1 ∧ 0 < s1.currentStreak then
        { s1 with downStreaks := s1.downStreaks ++ [s1.currentStreak] }
      else s1
    { s2 with
        currentStreak := 0
        currentDirection := 0
        consecutiveUp := 0
        consecutiveDown := 0 }

structure StreakSide where
  count : Nat
  avgLength : ℚ
  maxLength : Nat
  probTwoPlus : ℚ
  probTwoPlusCI : ℚ × ℚ
deriving Repr, DecidableEq

structure StreaksResult where
  upStreaks : StreakSide
  downStreaks : StreakSide
deriving Repr, DecidableEq

/-- `calculateStreaks` (src lines 922-1001): empty result (`none`) below 3
valid rows; otherwise the left-to-right scan plus the final-streak push. -/
def calculateStreaks (prims : Prims) (valid : List Bar) : Option StreaksResult :=
  if valid.length < 3 then none else
  let final0 := (valid.map (fun r => r.tickMove)).foldl streakStep initStreakState
  let final1 :=
    if final0.currentDirection = 1 ∧ 0 < final0.currentStreak then
      { final0 with upStreaks := final0.upStreaks ++ [final0.currentStreak] }
    else final0
  let final :=
    if final1.currentDirection = -1 ∧ 0 < final1.currentStreak then
      { final1 with downStreaks := final1.downStreaks ++ [final1.currentStreak] }
    else final1
  let n := valid.length
  some
    { upStreaks :=
        { count := final.upStreaks.length
          avgLength :=
            if 0 < final.upStreaks.length then
              meanQ (final.upStreaks.map (fun k => (k : ℚ)))
            else 0
          maxLength :=
            if 0 < final.upStreaks.length then final.upStreaks.foldl max 0 else 0
          probTwoPlus := (final.twoUpCount : ℚ) / n
          probTwoPlusCI := wilsonCIq prims final.twoUpCount n }
      downStreaks :=
        { count := final.downStreaks.length
          avgLength :=
            if 0 < final.downStreaks.length then
              meanQ (final.downStreaks.map (fun k => (k : ℚ)))
            else 0
          maxLength :=
            if 0 < final.downStreaks.length then final.downStreaks.foldl max 0 else 0
          probTwoPlus := (final.twoDownCount : ℚ) / n
          probTwoPlusCI := wilsonCIq prims final.twoDownCount n } }

/-! ### Distribution test suite (`calculateStats`, src lines 815-916) -/

structure Distribution where
  meanAbs : ℚ
  stdAbs : ℚ
  stdDir : ℚ
  medianAbs : ℚ
  meanDir : ℚ
  skewness : ℚ
  kurtosis : ℚ
  isFlatline : Bool
deriving Repr, DecidableEq

structure TTest where
  tStat : ℚ
  pValue : ℚ
  hasBias : Bool
  flatlineNote : Bool
deriving Repr, DecidableEq

structure RunsTest where
  zStat : Option ℚ
  isRandom : Option Bool
  notApplicable : Bool
deriving Repr, DecidableEq

structure StatsResult where
  distribution : Distribution
  autocorrelation : List (Nat × Option ℚ)
  ttest : TTest
  runsTest : RunsTest
deriving Repr, DecidableEq

/-- `calculateStats` (src lines 815-916): empty result (`none`) below 10 raw
rows; moments with flatline guards, lag autocorrelations with `n - 1`
normalisation, one-sample t-test (p-value from the external primitive), and
the runs test against the median. -/
def calculateStats (prims : Prims) (raw : List Bar) : Option StatsResult :=
  let tickMoves := (raw.map (fun r => r.tickMove)).map jsNumQ
  let absMoves := (raw.map (fun r => r.absTickMove)).map jsNumQ
  if tickMoves.length < 10 then none else
  let stdDir := prims.sqrtq (sampleVarQ tickMoves)
  let stdAbs := prims.sqrtq (sampleVarQ absMoves)
  let distribution : Distribution :=
    { meanAbs := meanQ absMoves, stdAbs := stdAbs, stdDir := stdDir
      medianAbs := medianOfList absMoves, meanDir := meanQ tickMoves
      skewness := if stdDir = 0 then 0 else prims.skewq tickMoves
      kurtosis := if stdDir = 0 then 0 else prims.kurtq tickMoves - 3
      isFlatline := stdDir = 0 }
  let autocorrelation := ([1, 2, 3, 5] : List Nat).filterMap (fun lag =>
    if lag < tickMoves.length then
      let slice1 := tickMoves.take (tickMoves.length - lag)
      let slice2 := tickMoves.drop lag
      let std1 := prims.sqrtq (sampleVarQ slice1)
      let std2 := prims.sqrtq (sampleVarQ slice2)
      some (lag,
        if std1 = 0 ∨ std2 = 0 then none
        else some (listSum ((slice1.zip slice2).map (fun p =>
            (p.1 - meanQ slice1) * (p.2 - meanQ slice2)))
          / (((slice1.length : ℚ) - 1) * std1 * std2)))
    else none)
  let ttest : TTest :=
    if stdDir = 0 then { tStat := 0, pValue := 1, hasBias := false, flatlineNote := true }
    else
      { tStat := meanQ tickMoves / (stdDir / prims.sqrtq ((tickMoves.length : ℚ)))
        pValue := prims.pvalq tickMoves
        hasBias := decide (prims.pvalq tickMoves < 1/20)
        flatlineNote := false }
  let med := medianOfList tickMoves
  let above := tickMoves.map (fun t => decide (med < t))
  let nAbove := above.countP id
  let nBelow := above.length - nAbove
  let runsTest : RunsTest :=
    if nAbove = 0 ∨ nBelow = 0 then
      { zStat := none, isRandom := none, notApplicable := true }
    else
      let runs : Nat := 1 + ((above.zip above.tail).filter (fun p => p.1 != p.2)).length
      let a : ℚ := nAbove
      let b : ℚ := nBelow
      let expRuns : ℚ := 1 + 2 * a * b / (a + b)
      let varRuns : ℚ := 2 * a * b * (2 * a * b - a - b) / ((a + b) ^ 2 * (a + b - 1))
      let zRuns : ℚ := ((runs : ℚ) - expRuns) / prims.sqrtq (max varRuns (1 / 1000000000))
      { zStat := some zRuns, isRandom := some (decide (|zRuns| < 196/100)),
        notApplicable := false }
  some { distribution := distribution, autocorrelation := autocorrelation,
         ttest := ttest, runsTest := runsTest }

/-! ### Range probabilities (src lines 1008-1040) -/

structure RangeProbs where
  probWithin : ℚ
  probWithinCI : ℚ × ℚ
  probBreakout : ℚ
  probBreakoutCI : ℚ × ℚ
deriving Repr, DecidableEq

/-- `calculateRangeProbabilities`: per tick level, `P(|move| < n)` vs its
complement. -/
def calculateRangeProbabilities (prims : Prims) (cfg : Config) (valid : List Bar) :
    List (Int × RangeProbs) :=
  if valid.length = 0 then [] else
  cfg.tickLevels.map (fun nticks =>
    let within := valid.countP (fun r => decide (jsNumZ r.absTickMove < nticks))
    let breakout := valid.countP (fun r => !decide (jsNumZ r.absTickMove < nticks))
    (nticks,
     { probWithin := (within : ℚ) / valid.length
       probWithinCI := wilsonCIq prims within valid.length
       probBreakout := (breakout : ℚ) / valid.length
       probBreakoutCI := wilsonCIq prims breakout valid.length }))

/-! ### Expected value (src lines 1045-1091) -/

structure EVResult where
  expectedTick : ℚ
  expectedTickCI : ℚ × ℚ
  expectedAbs : ℚ
  avgGain : ℚ
  avgLoss : ℚ
  winRate : ℚ
  winRateCI : ℚ × ℚ
  profitFactor : WithTop ℚ
  riskReward : WithTop ℚ
  totalGains : ℚ
  totalLosses : ℚ
deriving DecidableEq

/-- `calculateExpectedValue`: gains/losses split; `⊤` models the intentional
`Infinity` sentinel for profit factor and risk/reward. -/
def calculateExpectedValue (prims : Prims) (valid : List Bar) : Option EVResult :=
  if valid.length = 0 then none else
  let tickMoves := (valid.map (fun r => r.tickMove)).map jsNumQ
  let absMoves := (valid.map (fun r => r.absTickMove)).map jsNumQ
  let gains := tickMoves.filter (fun t => decide (0 < t))
  let losses := tickMoves.filter (fun t => decide (t < 0))
  let avgGain := if 0 < gains.length then meanQ gains else 0
  let avgLoss := if 0 < losses.length then |meanQ losses| else 0
  let winRate := (gains.length : ℚ) / valid.length
  let totalGains := listSum gains
  let totalLosses := |listSum losses|
  let profitFactor : WithTop ℚ :=
    if 0 < totalLosses then ((totalGains / totalLosses : ℚ) : WithTop ℚ)
    else if 0 < totalGains then ⊤ else (0 : WithTop ℚ)
  let riskReward : WithTop ℚ :=
    if 0 < avgLoss then ((avgGain / avgLoss : ℚ) : WithTop ℚ)
    else if 0 < avgGain then ⊤ else (0 : WithTop ℚ)
  let expectedTick := meanQ tickMoves
  some
    { expectedTick := expectedTick
      expectedTickCI :=
        (expectedTick - (196/100) * prims.sqrtq (sampleVarQ tickMoves) /
            prims.sqrtq ((valid.length : ℚ)),
         expectedTick + (196/100) * prims.sqrtq (sampleVarQ tickMoves) /
            prims.sqrtq ((valid.length : ℚ)))
      expectedAbs := meanQ absMoves
      avgGain := avgGain
      avgLoss := avgLoss
      winRate := winRate
      winRateCI := wilsonCIq prims gains.length valid.length
      profitFactor := profitFactor
      riskReward := riskReward
      totalGains := totalGains
      totalLosses := totalLosses }

/-! ### Weekday probabilities (src lines 1096-1132) -/

/-- `Date.prototype.getDay` on the bar's timestamp (UTC reading; the epoch
day, day 0, was a Thursday, weekday 4). -/
def jsGetDay (t : Int) : Int := (Int.fdiv t msPerDay + 4) % 7

structure DayStats where
  n : Nat
  probUp : ℚ
  probUpCI : ℚ × ℚ
  probDown : ℚ
  probDownCI : ℚ × ℚ
  avgMove : ℚ
  volatility : ℚ
deriving Repr, DecidableEq

/-- `calculateWeekdayProbs` for one weekday `d` (src lines 1096-1132): the day
is reported only with at least 5 samples. -/
def calculateWeekdayProbs (prims : Prims) (valid : List Bar) (d : Int) : Option DayStats :=
  if valid.length = 0 then none else
  let bucket := valid.filter (fun r => jsGetDay r.time == d)
  if 5 ≤ bucket.length then
    let moves := (bucket.map (fun r => r.tickMove)).map jsNumQ
    let up := bucket.countP (fun r => decide (0 < jsNumZ r.tickMove))
    let down := bucket.countP (fun r => decide (jsNumZ r.tickMove < 0))
    some
      { n := bucket.length
        probUp := (up : ℚ) / bucket.length
        probUpCI := wilsonCIq prims up bucket.length
        probDown := (down : ℚ) / bucket.length
        probDownCI := wilsonCIq prims down bucket.length
        avgMove := if 0 < moves.length then meanQ moves else 0
        volatility := if 1 < moves.length then prims.sqrtq (sampleVarQ moves) else 0 }
  else none

/-! ### Recent vs. historical comparison (src lines 1137-1168) -/

structure RecentBlock where
  n : Nat
  probUp : ℚ
  probUpCI : ℚ × ℚ
  avgMove : ℚ
  volatility : ℚ
deriving Repr, DecidableEq

structure RecentComparison where
  recent : RecentBlock
  historical : RecentBlock
  regimeChange : Bool
deriving Repr, DecidableEq

/-- `calculateRecentComparison`: requires at least 60 valid rows; last 30 vs
all earlier. -/
def calculateRecentComparison (prims : Prims) (valid : List Bar) : Option RecentComparison :=
  if valid.length < 60 then none else
  let recent := valid.drop (valid.length - 30)
  let historical := valid.take (valid.length - 30)
  let recentUp := recent.countP (fun r => decide (0 < jsNumZ r.tickMove))
  let historicalUp := historical.countP (fun r => decide (0 < jsNumZ r.tickMove))
  let recentMoves := (recent.map (fun r => r.tickMove)).map jsNumQ
  let historicalMoves := (historical.map (fun r => r.tickMove)).map jsNumQ
  some
    { recent :=
        { n := recent.length
          probUp := (recentUp : ℚ) / recent.length
          probUpCI := wilsonCIq prims recentUp recent.length
          avgMove := meanQ recentMoves
          volatility := prims.sqrtq (sampleVarQ recentMoves) }
      historical :=
        { n := historical.length
          probUp := (historicalUp : ℚ) / historical.length
          probUpCI := wilsonCIq prims historicalUp historical.length
          avgMove := meanQ historicalMoves
          volatility := prims.sqrtq (sampleVarQ historicalMoves) }
      regimeChange :=
        decide (1/10 <
          |(recentUp : ℚ) / recent.length - (historicalUp : ℚ) / historical.length|) }

/-! ### Support/resistance bar annotation (src lines 588-645) -/

/-- The centred rolling swing detection (src lines 636-645) over the tick
indices of the lookback window, by window position. -/
def swingFlags (ticks : List Int) (halfWin : Nat) : List (Bool × Bool) :=
  mapWithIndex (fun idx t =>
    let start := idx - halfWin
    let stop := min (ticks.length - 1) (idx + halfWin)
    let win := (ticks.drop start).take (stop + 1 - start)
    (t == win.foldl max (win.headD t), t == win.foldl min (win.headD t))) 0 ticks

/-- Write `tickIdx` and the swing flags back onto the bars selected by the
lookback predicate, consuming the annotation list in order; this is the
in-place mutation of the shared bar objects (src lines 620-645). -/
def applyAnnotations : List Bar → (Bar → Bool) → List (Int × Bool × Bool) → List Bar
  | [], _, _ => []
  | b :: rest, pred, anns =>
    if pred b then
      match anns with
      | a :: arest =>
        { b with tickIdx := some a.1, isSwingHigh := some a.2.1, isSwingLow := some a.2.2 }
          :: applyAnnotations rest pred arest
      | [] => b :: applyAnnotations rest pred []
    else b :: applyAnnotations rest pred anns

/-- The part of `calculateSupportResistance` that writes bar fields (src lines
588-645): recency filter with full-history fallback below 10 bars, then
`tickIdx = round(spreadClose / tickSize)` and the swing flags on every
retained bar.  The rest of the pass (levels, strength, trend) only reads. -/
def srAnnotate (cfg : Config) (bars : List Bar) : List Bar :=
  match bars.getLast? with
  | none => bars
  | some lastBar =>
    let cutoff : Int := lastBar.time - cfg.srLookbackDays * 86400000
    let pred0 : Bar → Bool := fun r => decide (cutoff ≤ r.time)
    let pred : Bar → Bool := if (bars.filter pred0).length < 10 then (fun _ => true) else pred0
    let df := bars.filter pred
    let ticks := df.map (fun r => jsRound (r.spreadClose / cfg.tickSize))
    let halfWin := cfg.swingWindow / 2
    applyAnnotations bars pred (ticks.zip (swingFlags ticks halfWin))

/-! ### The analysis passes as model transformers.  The source mutates a
calculator object; each pass below takes the model and returns the model it
leaves behind together with its result.  Only `calculateSupportResistance`
assigns to bar fields, so only its pass transforms the model. -/

def empiricalPass (prims : Prims) (cfg : Config) (m : Model) :
    Model × (ProbsResult × ProbsResult) :=
  (m, (computeProbs prims cfg (dfRawOf m.bars), computeProbs prims cfg (dfValidOf m.bars)))

def volumeWeightedPass (cfg : Config) (m : Model) : Model × List (Int × VolWeighted) :=
  (m, calculateVolumeWeighted cfg (dfRawOf m.bars))

def bootstrapPass (cfg : Config) (nIter seed : Nat) (m : Model) :
    Model × List (Int × BootLevel) :=
  (m, calculateBootstrap cfg nIter seed (dfValidOf m.bars))

def conditionalPass (cfg : Config) (m : Model) : Model × CondResult :=
  (m, calculateConditional cfg (dfValidOf m.bars))

/-- `calculateSupportResistance` writes `tickIdx`, `isSwingHigh`, `isSwingLow`
onto the shared bar objects; the model it leaves behind carries those
annotations. -/
def supportResistancePass (cfg : Config) (m : Model) : Model :=
  { m with bars := srAnnotate cfg m.bars }

def statsPass (prims : Prims) (m : Model) : Model × Option StatsResult :=
  (m, calculateStats prims (dfRawOf m.bars))

def streaksPass (prims : Prims) (m : Model) : Model × Option StreaksResult :=
  (m, calculateStreaks prims (dfValidOf m.bars))

def rangePass (prims : Prims) (cfg : Config) (m : Model) : Model × List (Int × RangeProbs) :=
  (m, calculateRangeProbabilities prims cfg (dfValidOf m.bars))

def expectedValuePass (prims : Prims) (m : Model) : Model × Option EVResult :=
  (m, calculateExpectedValue prims (dfValidOf m.bars))

def weekdayPass (prims : Prims) (d : Int) (m : Model) : Model × Option DayStats :=
  (m, calculateWeekdayProbs prims (dfValidOf m.bars) d)

def recentComparisonPass (prims : Prims) (m : Model) : Model × Option RecentComparison :=
  (m, calculateRecentComparison prims (dfValidOf m.bars))

/-- A bar with its lazily-assigned level-detection annotations erased; two
bars agree on all aligner-owned fields exactly when their erasures agree. -/
def eraseAnnotations (b : Bar) : Bar :=
  { b with tickIdx := none, isSwingHigh := none, isSwingLow := none }

/-- `wilsonCI` (src lines 174-182) over the reals, the idealised model of the
source's float computation: `z` is the external `jStat.normal.inv(0.975)`
value, assumed nonnegative, and `Math.sqrt` is the real square root. -/
noncomputable def wilsonCI (successes trials : Nat) (z : ℝ) : ℝ × ℝ :=
  if trials = 0 then (0, 0) else
  let p : ℝ := successes / trials
  let denom := 1 + z ^ 2 / trials
  let center := (p + z ^ 2 / (2 * trials)) / denom
  let margin := (z / denom) *
    Real.sqrt (p * (1 - p) / trials + z ^ 2 / (4 * trials * trials))
  (max 0 (center - margin), min 1 (center + margin))

/-- Concrete run used to separate the source's outlier pass from the claim's
reading of it: three merged days with spread closes 0, 4, 14 at tick size 1
(tickMoves `null, 4, 10`), `minExpandingWindow = 2`,
`outlierMadThreshold = 1`, `minOutlierTicks = 0`. -/
def cexLeg1 : List RawBar :=
  [{ time := 0, close := 0, volume := 1 },
   { time := 86400000, close := 4, volume := 1 },
   { time := 172800000, close := 14, volume := 1 }]

def cexLeg2 : List RawBar :=
  [{ time := 0, close := 0, volume := 1 },
   { time := 86400000, close := 0, volume := 1 },
   { time := 172800000, close := 0, volume := 1 }]

def cexCfg : Config :=
  { defaultConfig with
      tickSize := 1, outlierMadThreshold := 1, minOutlierTicks := 0,
      minExpandingWindow := 2 }

def cexBars : List Bar := (loadAndMerge prims0 cexCfg cexLeg1 cexLeg2).bars

/-! ### Structural lemmas about the pipeline -/

theorem length_mapWithIndex (f : Nat → α → β) :
    ∀ (i : Nat) (l : List α), (mapWithIndex f i l).length = l.length := by
  intro i l
  induction l generalizing i with
  | nil => rfl
  | cons x xs ih => simp [mapWithIndex, ih]

theorem get?_mapWithIndex (f : Nat → α → β) :
    ∀ (i : Nat) (l : List α) (j : Nat),
      (mapWithIndex f i l).get? j = (l.get? j).map (f (i + j)) := by
  intro i l
  induction l generalizing i with
  | nil => intro j; rfl
  | cons x xs ih =>
    intro j
    cases j with
    | zero => rfl
    | succ j =>
      have harith : i + 1 + j = i + (j + 1) := by omega
      simp only [mapWithIndex, List.get?_cons_succ, ih (i + 1) j, harith]

theorem mem_mapWithIndex {f : Nat → α → β} {b : β} :
    ∀ {i : Nat} {l : List α}, b ∈ mapWithIndex f i l → ∃ j a, a ∈ l ∧ b = f j a := by
  intro i l
  induction l generalizing i with
  | nil => intro h; cases h
  | cons x xs ih =>
    intro h
    rcases List.mem_cons.mp h with h | h
    · exact ⟨i, x, List.mem_cons_self x xs, h⟩
    · obtain ⟨j, a, ha, hb⟩ := ih h
      exact ⟨j, a, List.mem_cons_of_mem _ ha, hb⟩

theorem map_mapWithIndex_eq {f : Nat → α → α} {g : α → β}
    (hg : ∀ i b, g (f i b) = g b) :
    ∀ (i : Nat) (l : List α), (mapWithIndex f i l).map g = l.map g := by
  intro i l
  induction l generalizing i with
  | nil => rfl
  | cons x xs ih => simp [mapWithIndex, hg, ih]

theorem markConsecutive_preserves {cfg : Config} (g : Bar → β)
    (hg : ∀ (b : Bar) (c : Bool), g { b with isConsecutive := c } = g b)
    (bars : List Bar) : (markConsecutive cfg bars).map g = bars.map g := by
  unfold markConsecutive
  exact map_mapWithIndex_eq (fun i b => hg b _) 0 bars

theorem markOutliers_preserves {cfg : Config} (g : Bar → β)
    (hg : ∀ (b : Bar) (w o : Bool), g { b with isWarmup := w, isOutlier := o } = g b)
    (bars : List Bar) : (markOutliers cfg bars).map g = bars.map g := by
  unfold markOutliers
  exact map_mapWithIndex_eq (fun i b => hg b _ _) 0 bars

theorem rowId_rawBarsAux (ts : ℚ) :
    ∀ (rows : List MergedRaw) (prev : Option (ℚ × Int)) (idx : Nat),
      (rawBarsAux ts prev idx rows).map Bar.rowId = List.range' idx rows.length := by
  intro rows
  induction rows with
  | nil => intro prev idx; rfl
  | cons r rest ih =>
    intro prev idx
    cases prev with
    | none => simp [rawBarsAux, ih, List.range'
      ]
    | some p => simp [rawBarsAux, ih, List.range']

theorem rowId_barsOf (cfg : Config) (d1 d2 : List RawBar) :
    (barsOf cfg d1 d2).map Bar.rowId =
      List.range' 0 (mergedRows d1 d2).length := by
  unfold barsOf
  rw [markOutliers_preserves Bar.rowId (fun b w o => rfl),
      markConsecutive_preserves Bar.rowId (fun b c => rfl)]
  exact rowId_rawBarsAux cfg.tickSize (mergedRows d1 d2) none 0

theorem outlierFlag_of_warm {cfg : Config} {tms : List (Option Int)} {i : Nat}
    {tm : Option Int} (hw : warmupFlag tms cfg.minExpandingWindow i = true) :
    outlierFlag cfg tms i tm = false := by
  unfold outlierFlag
  rw [hw]
  rfl

theorem warmup_not_outlier_markOutliers {cfg : Config} {bars : List Bar} :
    ∀ b ∈ markOutliers cfg bars, b.isWarmup = true → b.isOutlier = false := by
  intro b hb hw
  unfold markOutliers at hb
  obtain ⟨j, a, _, hba⟩ := mem_mapWithIndex hb
  subst hba
  have hw2 : warmupFlag (bars.map (fun b => b.tickMove)) cfg.minExpandingWindow j = true := hw
  exact outlierFlag_of_warm hw2

/-- Counting helper: rows satisfying neither of two mutually exclusive flags,
plus rows satisfying each flag, partition the list. -/
theorem countP_partition (p q : α → Bool) :
    ∀ (l : List α), (∀ a ∈ l, ¬(p a = true ∧ q a = true)) →
      (l.filter (fun a => !p a && !q a)).length + (l.countP p + l.countP q) = l.length := by
  intro l
  induction l with
  | nil => intro _; rfl
  | cons x xs ih =>
    intro h
    have hx := h x (List.mem_cons_self ..)
    have hxs := fun a ha => h a (List.mem_cons_of_mem _ ha)
    have := ih hxs
    by_cases hp : p x = true <;> by_cases hq : q x = true <;>
      simp [List.filter_cons, List.countP_cons, hp, hq] at * <;> omega

/-- C2: the invariants of the merged model.  `rowId` is the dense 0-based
index across `allBars`; warm-up rows are never outliers; `validSet ⊆ rawSet ⊆
allBars` (as sublists); and `|validSet| = |rawSet| - outliers - warmups`
restricted to `rawSet`. -/
theorem claim_C2_model_invariants (prims : Prims) (cfg : Config) (d1 d2 : List RawBar) :
    ((loadAndMerge prims cfg d1 d2).bars.map Bar.rowId =
        List.range (loadAndMerge prims cfg d1 d2).bars.length) ∧
    ((loadAndMerge prims cfg d1 d2).bars.countP (fun b => b.isWarmup && b.isOutlier) = 0) ∧
    (List.Sublist (dfValidOf (loadAndMerge prims cfg d1 d2).bars) (dfRawOf (loadAndMerge prims cfg d1 d2).bars)) ∧
    (List.Sublist (dfRawOf (loadAndMerge prims cfg d1 d2).bars) (loadAndMerge prims cfg d1 d2).bars) ∧
    ((dfValidOf (loadAndMerge prims cfg d1 d2).bars).length =
      (dfRawOf (loadAndMerge prims cfg d1 d2).bars).length -
        ((dfRawOf (loadAndMerge prims cfg d1 d2).bars).countP (fun b => b.isOutlier) +
         (dfRawOf (loadAndMerge prims cfg d1 d2).bars).countP (fun b => b.isWarmup))) := by
  have hbars : (loadAndMerge prims cfg d1 d2).bars = barsOf cfg d1 d2 := rfl
  rw [hbars]
  set bars := barsOf cfg d1 d2 with hb
  have hwo : ∀ b ∈ bars, b.isWarmup = true → b.isOutlier = false := by
    rw [hb]; unfold barsOf; exact warmup_not_outlier_markOutliers
  have hlen : bars.length = (mergedRows d1 d2).length := by
    have := congrArg List.length (rowId_barsOf cfg d1 d2)
    simpa using this
  refine ⟨?_, ?_, ?_, ?_, ?_⟩
  · rw [hb, rowId_barsOf cfg d1 d2, ← hb, hlen, List.range_eq_range']
  · rw [List.countP_eq_zero]
    intro b hb'
    simp only [Bool.and_eq_true, not_and]
    intro hw
    simp [hwo b hb' hw]
  · have hval : dfValidOf bars = (dfRawOf bars).filter (fun r => !r.isOutlier && !r.isWarmup) := by
      unfold dfValidOf dfRawOf
      rw [List.filter_filter]
      congr 1
      funext r
      simp [Bool.and_assoc]
    rw [hval]
    exact List.filter_sublist _
  · exact List.filter_sublist _
  · have hval : dfValidOf bars = (dfRawOf bars).filter (fun r => !r.isOutlier && !r.isWarmup) := by
      unfold dfValidOf dfRawOf
      rw [List.filter_filter]
      congr 1
      funext r
      simp [Bool.and_assoc]
    have hsub : ∀ b ∈ dfRawOf bars, b ∈ bars := fun b hb' =>
      (List.filter_sublist _).subset hb'
    have hdisj : ∀ b ∈ dfRawOf bars, ¬(b.isOutlier = true ∧ b.isWarmup = true) := by
      intro b hb' ⟨ho, hw⟩
      have := hwo b (hsub b hb') hw
      rw [this] at ho
      cases ho
    have hpart := countP_partition (fun b => b.isOutlier) (fun b => b.isWarmup)
      (dfRawOf bars) hdisj
    simp only at hpart
    rw [hval]
    omega

/-! ### The expanding statistics at a given index -/

theorem mem_insertAsc {lt : α → α → Bool} {x y : α} :
    ∀ {l : List α}, y ∈ insertAsc lt x l → y = x ∨ y ∈ l := by
  intro l
  induction l with
  | nil =>
    intro h
    simp only [insertAsc] at h
    exact Or.inl (List.mem_singleton.mp h)
  | cons z zs ih =>
    intro h
    unfold insertAsc at h
    by_cases hc : lt z x
    · rw [if_pos hc] at h
      rcases List.mem_cons.mp h with h | h
      · exact Or.inr (List.mem_cons.mpr (Or.inl h))
      · rcases ih h with h | h
        · exact Or.inl h
        · exact Or.inr (List.mem_cons_of_mem _ h)
    · rw [if_neg hc] at h
      rcases List.mem_cons.mp h with h | h
      · exact Or.inl h
      · exact Or.inr h

theorem mem_sortAsc {lt : α → α → Bool} {y : α} :
    ∀ {l : List α}, y ∈ sortAsc lt l → y ∈ l := by
  intro l
  induction l with
  | nil => intro h; exact h
  | cons x xs ih =>
    intro h
    simp only [sortAsc, List.foldr_cons] at h
    rcases mem_insertAsc h with h | h
    · subst h; exact List.mem_cons_self y xs
    · exact List.mem_cons_of_mem _ (ih h)

theorem getD_nonneg : ∀ {l : List ℚ}, (∀ x ∈ l, 0 ≤ x) → ∀ (k : Nat), 0 ≤ l.getD k 0 := by
  intro l
  induction l with
  | nil => intro _ k; simp
  | cons x xs ih =>
    intro h k
    cases k with
    | zero => simpa using h x (List.mem_cons_self x xs)
    | succ k =>
      simp only [List.getD_cons_succ]
      exact ih (fun y hy => h y (List.mem_cons_of_mem _ hy)) k

theorem medianOfList_nonneg {l : List ℚ} (h : ∀ x ∈ l, 0 ≤ x) : 0 ≤ medianOfList l := by
  unfold medianOfList
  have hs : ∀ x ∈ sortAsc (fun a b => decide (a < b)) l, 0 ≤ x := fun x hx =>
    h x (mem_sortAsc hx)
  by_cases hodd : l.length % 2 = 1
  · rw [if_pos hodd]
    exact getD_nonneg hs _
  · rw [if_neg hodd]
    have h1 := getD_nonneg hs (l.length / 2 - 1)
    have h2 := getD_nonneg hs (l.length / 2)
    positivity

theorem madAt_nonneg (tms : List (Option Int)) (i : Nat) : 0 ≤ madAt tms i := by
  unfold madAt
  have hmed : 0 ≤ medianOfList
      (((tms.take (i + 1)).filterMap id).map (fun (v : Int) => |(v : ℚ) - medAt tms i|)) := by
    refine medianOfList_nonneg ?_
    intro x hx
    obtain ⟨v, _, rfl⟩ := List.mem_map.mp hx
    exact abs_nonneg _
  positivity

theorem expandingMedian_eq_some (arr : List (Option Int)) (minP i : Nat)
    (hi : i < arr.length) (hm : minP - 1 ≤ i) :
    expandingMedian arr minP i = some (medAt arr i) := by
  unfold expandingMedian medAt
  rw [if_pos ⟨hm, hi⟩]
  simp only [List.length_map, List.length_take]
  rw [if_pos (by omega : minP ≤ min (i + 1) arr.length)]

theorem expandingMedian_eq_none (arr : List (Option Int)) (minP i : Nat)
    (hm : i < minP - 1) : expandingMedian arr minP i = none := by
  unfold expandingMedian
  rw [if_neg]
  intro hc
  omega

theorem rollingMAD_eq_some (arr : List (Option Int)) (minP i : Nat)
    (hi : i < arr.length) (hm : minP - 1 ≤ i)
    (hw : minP ≤ ((arr.take (i + 1)).filterMap id).length) :
    rollingMAD arr minP i = some (madAt arr i) := by
  unfold rollingMAD madAt
  rw [if_pos ⟨hm, hi⟩]
  simp only
  rw [if_pos hw, expandingMedian_eq_some arr minP i hi hm]

theorem rollingMAD_eq_none_low (arr : List (Option Int)) (minP i : Nat)
    (hw : ((arr.take (i + 1)).filterMap id).length < minP) :
    rollingMAD arr minP i = none := by
  unfold rollingMAD
  by_cases h1 : minP - 1 ≤ i ∧ i < arr.length
  · rw [if_pos h1]
    simp only
    rw [if_neg (by omega)]
  · rw [if_neg h1]

/-- The non-null window of a merged tickMove column (`null` head, integer
tail) at index `i` is exactly the first `i` integers. -/
theorem filterMap_take_shape (l : List Int) (i : Nat) :
    (((none :: l.map some : List (Option Int))).take (i + 1)).filterMap id = l.take i := by
  rw [List.take_succ_cons, List.filterMap_cons]
  simp only [id]
  rw [← List.map_take, List.filterMap_map]
  simp [List.filterMap_eq_map]

theorem warmupFlag_shape {l : List Int} {minP i : Nat} (h1 : 1 ≤ minP)
    (hi : i < (none :: l.map some : List (Option Int)).length) :
    warmupFlag (none :: l.map some) minP i = decide (i < minP) := by
  have hlen : (none :: l.map some : List (Option Int)).length = l.length + 1 := by simp
  have hi2 : i < l.length + 1 := by rw [← hlen]; exact hi
  have hfl : ((((none :: l.map some : List (Option Int))).take (i + 1)).filterMap id).length
      = i := by
    rw [filterMap_take_shape]
    simp only [List.length_take]
    omega
  by_cases hlt : i < minP
  · have hmad : rollingMAD (none :: l.map some) minP i = none :=
      rollingMAD_eq_none_low (none :: l.map some) minP i (by omega)
    unfold warmupFlag
    rw [hmad]
    simp [hlt]
  · have hmed := expandingMedian_eq_some (none :: l.map some) minP i hi (by omega)
    have hmad := rollingMAD_eq_some (none :: l.map some) minP i hi (by omega) (by omega)
    unfold warmupFlag
    rw [hmed, hmad]
    simp [hlt]

theorem outlierFlag_shape {cfg : Config} {l : List Int} {i : Nat} {t : Int}
    (h1 : 1 ≤ cfg.minExpandingWindow) (hmt : 0 ≤ cfg.minOutlierTicks)
    (hi : i < (none :: l.map some : List (Option Int)).length)
    (hge : cfg.minExpandingWindow ≤ i) :
    outlierFlag cfg (none :: l.map some) i (some t) =
      decide (cfg.outlierMadThreshold *
          max (madAt (none :: l.map some) i) cfg.minOutlierTicks
        < |(t : ℚ) - medAt (none :: l.map some) i|) := by
  have hlen : (none :: l.map some : List (Option Int)).length = l.length + 1 := by simp
  have hi2 : i < l.length + 1 := by rw [← hlen]; exact hi
  have hfl : ((((none :: l.map some : List (Option Int))).take (i + 1)).filterMap id).length
      = i := by
    rw [filterMap_take_shape]
    simp only [List.length_take]
    omega
  have hwarm : warmupFlag (none :: l.map some) cfg.minExpandingWindow i = false := by
    rw [warmupFlag_shape h1 hi]
    simp only [decide_eq_false_iff_not]
    omega
  have hmed := expandingMedian_eq_some (none :: l.map some) cfg.minExpandingWindow i
    hi (by omega)
  have hmad := rollingMAD_eq_some (none :: l.map some) cfg.minExpandingWindow i
    hi (by omega) (by omega)
  have hbeq : (some t == (none : Option Int)) = false := rfl
  have hmax : (if madAt (none :: l.map some) i = 0 then cfg.minOutlierTicks
        else madAt (none :: l.map some) i) ⊔ cfg.minOutlierTicks
      = madAt (none :: l.map some) i ⊔ cfg.minOutlierTicks := by
    by_cases h0 : madAt (none :: l.map some) i = 0
    · rw [if_pos h0, h0, max_self, max_eq_right hmt]
    · rw [if_neg h0]
  unfold outlierFlag
  rw [hwarm, hbeq, hmed, hmad]
  simp only [Bool.or_self, Option.getD_some, Bool.false_eq_true, if_false, hmax]
  simp [jsNumQ]

/-! ### Shape of the tickMove column and the C1 characterisation -/

theorem tickMove_rawBarsAux_some (ts : ℚ) :
    ∀ (rows : List MergedRaw) (p : ℚ × Int) (idx : Nat),
      ∃ l : List Int, (rawBarsAux ts (some p) idx rows).map Bar.tickMove = l.map some := by
  intro rows
  induction rows with
  | nil => intro p idx; exact ⟨[], rfl⟩
  | cons r rest ih =>
    intro p idx
    obtain ⟨l, hl⟩ := ih (r.close1 - r.close2, r.time) (idx + 1)
    refine ⟨jsRound ((r.close1 - r.close2 - p.1) / ts) :: l, ?_⟩
    simp only [rawBarsAux, List.map_cons, hl, List.map]

theorem tickMove_markConsecutive (cfg : Config) (bars : List Bar) :
    (markConsecutive cfg bars).map (fun b => b.tickMove) = bars.map (fun b => b.tickMove) :=
  markConsecutive_preserves (fun b => b.tickMove) (fun _ _ => rfl) bars

theorem tickMove_markOutliers (cfg : Config) (bars : List Bar) :
    (markOutliers cfg bars).map (fun b => b.tickMove) = bars.map (fun b => b.tickMove) :=
  markOutliers_preserves (fun b => b.tickMove) (fun _ _ _ => rfl) bars

/-- The tickMove column of the merged series: `null` for the first row,
integers afterwards. -/
theorem tms_shape (cfg : Config) (r : MergedRaw) (rest : List MergedRaw) :
    ∃ l : List Int,
      (markConsecutive cfg (rawBars cfg.tickSize (r :: rest))).map (fun b => b.tickMove)
        = (none : Option Int) :: l.map some := by
  obtain ⟨l, hl⟩ := tickMove_rawBarsAux_some cfg.tickSize rest (r.close1 - r.close2, r.time) 1
  refine ⟨l, ?_⟩
  rw [tickMove_markConsecutive]
  have : (rawBars cfg.tickSize (r :: rest)).map (fun b => b.tickMove)
      = none :: (rawBarsAux cfg.tickSize (some (r.close1 - r.close2, r.time)) 1 rest).map
          (fun b => b.tickMove) := by
    simp only [rawBars, rawBarsAux, List.map_cons]
  rw [this]
  have hl' : (rawBarsAux cfg.tickSize (some (r.close1 - r.close2, r.time)) 1 rest).map
      (fun b => b.tickMove) = l.map some := by
    have := hl
    simpa using this
  rw [hl']


theorem cexRows_eval : mergedRows cexLeg1 cexLeg2 =
    [{ time := 0, dateKey := 0, close1 := 0, close2 := 0, volume1 := 1, volume2 := 1 },
     { time := 86400000, dateKey := 1, close1 := 4, close2 := 0, volume1 := 1, volume2 := 1 },
     { time := 172800000, dateKey := 2, close1 := 14, close2 := 0, volume1 := 1, volume2 := 1 }] := by
  norm_num [mergedRows, dedupByDay, sortAsc, insertAsc, upsert, lookupDay, dayOf,
    msPerDay, cexLeg1, cexLeg2, Int.fdiv, List.filterMap_cons]


theorem cexRaw_eval : rawBars cexCfg.tickSize (mergedRows cexLeg1 cexLeg2) =
    [{ rowId := 0, time := 0, dateKey := 0, close1 := 0, close2 := 0, volume1 := 1,
       volume2 := 1, spreadClose := 0, spreadVolume := 1, priceChange := none,
       tickMove := none, absTickMove := none, daysGap := none, isConsecutive := false,
       isWarmup := false, isOutlier := false, tickIdx := none, isSwingHigh := none,
       isSwingLow := none },
     { rowId := 1, time := 86400000, dateKey := 1, close1 := 4, close2 := 0, volume1 := 1,
       volume2 := 1, spreadClose := 4, spreadVolume := 1, priceChange := some 4,
       tickMove := some 4, absTickMove := some 4, daysGap := some 1, isConsecutive := false,
       isWarmup := false, isOutlier := false, tickIdx := none, isSwingHigh := none,
       isSwingLow := none },
     { rowId := 2, time := 172800000, dateKey := 2, close1 := 14, close2 := 0, volume1 := 1,
       volume2 := 1, spreadClose := 14, spreadVolume := 1, priceChange := some 10,
       tickMove := some 10, absTickMove := some 10, daysGap := some 1, isConsecutive := false,
       isWarmup := false, isOutlier := false, tickIdx := none, isSwingHigh := none,
       isSwingLow := none }] := by
  rw [cexRows_eval]
  norm_num [rawBars, rawBarsAux, jsRound, daysBetween, msPerDay, cexCfg, defaultConfig]

theorem cexCons_eval : markConsecutive cexCfg (rawBars cexCfg.tickSize (mergedRows cexLeg1 cexLeg2)) =
    [{ rowId := 0, time := 0, dateKey := 0, close1 := 0, close2 := 0, volume1 := 1,
       volume2 := 1, spreadClose := 0, spreadVolume := 1, priceChange := none,
       tickMove := none, absTickMove := none, daysGap := none, isConsecutive := true,
       isWarmup := false, isOutlier := false, tickIdx := none, isSwingHigh := none,
       isSwingLow := none },
     { rowId := 1, time := 86400000, dateKey := 1, close1 := 4, close2 := 0, volume1 := 1,
       volume2 := 1, spreadClose := 4, spreadVolume := 1, priceChange := some 4,
       tickMove := some 4, absTickMove := some 4, daysGap := some 1, isConsecutive := true,
       isWarmup := false, isOutlier := false, tickIdx := none, isSwingHigh := none,
       isSwingLow := none },
     { rowId := 2, time := 172800000, dateKey := 2, close1 := 14, close2 := 0, volume1 := 1,
       volume2 := 1, spreadClose := 14, spreadVolume := 1, priceChange := some 10,
       tickMove := some 10, absTickMove := some 10, daysGap := some 1, isConsecutive := true,
       isWarmup := false, isOutlier := false, tickIdx := none, isSwingHigh := none,
       isSwingLow := none }] := by
  rw [cexRaw_eval]
  norm_num [markConsecutive, mapWithIndex, cexCfg, defaultConfig]

theorem cexMed0 : expandingMedian [none, some 4, some 10] 2 0 = none := by
  norm_num [expandingMedian]

theorem cexMed1 : expandingMedian [none, some 4, some 10] 2 1 = some 2 := by
  norm_num [expandingMedian, medianOfList, sortAsc, insertAsc, jsNumQ]

theorem cexMed2 : expandingMedian [none, some 4, some 10] 2 2 = some 4 := by
  norm_num [expandingMedian, medianOfList, sortAsc, insertAsc, jsNumQ]

theorem cexMad1 : rollingMAD [none, some 4, some 10] 2 1 = none := by
  rw [rollingMAD, if_pos (by norm_num)]
  have htake : List.take 2 [none, some (4:Int), some 10] = [none, some 4] := rfl
  have hfm : List.filterMap id [none, some (4:Int)] = [4] := rfl
  simp only [htake, hfm, List.length_cons, List.length_nil]
  norm_num

theorem cexMad2 : rollingMAD [none, some 4, some 10] 2 2 = some (22239/5000) := by
  rw [rollingMAD, if_pos (by norm_num)]
  have htake : List.take 3 [none, some (4:Int), some 10] = [none, some 4, some 10] := rfl
  have hfm : List.filterMap id [none, some (4:Int), some 10] = [4, 10] := rfl
  simp only [htake, hfm, cexMed2, List.length_cons, List.length_nil]
  have hmap : List.map (fun v => |((v:Int):ℚ) - 4|) ([4, 10] : List Int) = [0, 6] := by
    norm_num
  rw [if_pos (by norm_num)]
  rw [hmap]
  norm_num [medianOfList, sortAsc, insertAsc]


theorem cexBars_eval : cexBars =
    [{ rowId := 0, time := 0, dateKey := 0, close1 := 0, close2 := 0, volume1 := 1,
       volume2 := 1, spreadClose := 0, spreadVolume := 1, priceChange := none,
       tickMove := none, absTickMove := none, daysGap := none, isConsecutive := true,
       isWarmup := true, isOutlier := false, tickIdx := none, isSwingHigh := none,
       isSwingLow := none },
     { rowId := 1, time := 86400000, dateKey := 1, close1 := 4, close2 := 0, volume1 := 1,
       volume2 := 1, spreadClose := 4, spreadVolume := 1, priceChange := some 4,
       tickMove := some 4, absTickMove := some 4, daysGap := some 1, isConsecutive := true,
       isWarmup := true, isOutlier := false, tickIdx := none, isSwingHigh := none,
       isSwingLow := none },
     { rowId := 2, time := 172800000, dateKey := 2, close1 := 14, close2 := 0, volume1 := 1,
       volume2 := 1, spreadClose := 14, spreadVolume := 1, priceChange := some 10,
       tickMove := some 10, absTickMove := some 10, daysGap := some 1, isConsecutive := true,
       isWarmup := false, isOutlier := true, tickIdx := none, isSwingHigh := none,
       isSwingLow := none }] := by
  have h1 : cexBars = markOutliers cexCfg
      (markConsecutive cexCfg (rawBars cexCfg.tickSize (mergedRows cexLeg1 cexLeg2))) := rfl
  rw [h1, cexCons_eval, markOutliers]
  simp only [List.map_cons, List.map_nil, mapWithIndex]
  norm_num [warmupFlag, outlierFlag, cexMed0, cexMed1, cexMed2, cexMad1, cexMad2,
    cexCfg, defaultConfig, max_def, jsNumQ]

theorem cexSpecMed2 : specMedAt [none, some 4, some 10] 2 = 7 := by
  have hfm : List.filterMap id (List.take 3 [none, some (4:Int), some 10]) = [4, 10] := rfl
  rw [specMedAt, hfm]
  norm_num [medianOfList, sortAsc, insertAsc]

theorem cexSpecMad2 : specMadAt [none, some 4, some 10] 2 = 22239/5000 := by
  have hfm : List.filterMap id (List.take 3 [none, some (4:Int), some 10]) = [4, 10] := rfl
  rw [specMadAt, hfm, cexSpecMed2]
  have hmap : List.map (fun (v : Int) => |(v : ℚ) - 7|) ([4, 10] : List Int) = [3, 3] := by
    norm_num
  rw [hmap]
  norm_num [medianOfList, sortAsc, insertAsc]


/-- C1 counterexample: with `minExpandingWindow = 2`, `outlierMadThreshold =
1`, `minOutlierTicks = 0` and tickMoves `null, 4, 10`, index 1 (which is
`>= minExpandingWindow - 1`, so the claim says it is inside the expanding
window and not warm-up) is still warm-up; and index 2 is classified an
outlier although the claim's median/MAD over the non-null tickMove values
(`specMedAt = 7`, `specMadAt = 4.4478`) put `|10 - 7| = 3` below the
threshold, i.e. the claim as stated predicts no outlier there. -/
theorem claim_C1_counterexample :
    ((cexBars.getD 1 default).isWarmup = true ∧ cexCfg.minExpandingWindow - 1 ≤ 1) ∧
    ((cexBars.getD 2 default).tickMove = some 10 ∧
     (cexBars.getD 2 default).isOutlier = true ∧
     ¬(cexCfg.outlierMadThreshold *
         max (specMadAt (cexBars.map (fun b => b.tickMove)) 2) cexCfg.minOutlierTicks
       < |((10 : Int) : ℚ) - specMedAt (cexBars.map (fun b => b.tickMove)) 2|)) := by
  have hmap : cexBars.map (fun b => b.tickMove) = [none, some 4, some 10] := by
    rw [cexBars_eval]
    rfl
  refine ⟨⟨?_, ?_⟩, ?_, ?_, ?_⟩
  · rw [cexBars_eval]
    rfl
  · norm_num [cexCfg, defaultConfig]
  · rw [cexBars_eval]
    rfl
  · rw [cexBars_eval]
    rfl
  · rw [hmap, cexSpecMad2, cexSpecMed2]
    norm_num [cexCfg, defaultConfig, max_def]

theorem getD_mapWithIndex (f : Nat → Bar → Bar) :
    ∀ (i : Nat) (l : List Bar) (j : Nat), j < l.length →
      (mapWithIndex f i l).getD j default = f (i + j) (l.getD j default) := by
  intro i l
  induction l generalizing i with
  | nil => intro j hj; simp at hj
  | cons x xs ih =>
    intro j hj
    cases j with
    | zero => simp [mapWithIndex]
    | succ j =>
      have harith : i + 1 + j = i + (j + 1) := by omega
      have := ih (i + 1) j (by simpa using hj)
      simp only [mapWithIndex, List.getD_cons_succ, this, harith]

theorem getD_markOutliers (cfg : Config) (bars : List Bar) (i : Nat) (hi : i < bars.length) :
    (markOutliers cfg bars).getD i default =
      { bars.getD i default with
          isWarmup := warmupFlag (bars.map (fun b => b.tickMove)) cfg.minExpandingWindow i,
          isOutlier := outlierFlag cfg (bars.map (fun b => b.tickMove)) i
            (bars.getD i default).tickMove } := by
  unfold markOutliers
  rw [getD_mapWithIndex _ 0 bars i hi, Nat.zero_add]

/-- C1, amended.  For every model and well-formed config
(`minExpandingWindow ≥ 1`, `minOutlierTicks ≥ 0`): a row is warm-up exactly
when its index is below `minExpandingWindow` (the MAD window needs
`minExpandingWindow` non-null tickMoves and the first row's tickMove is null,
so the boundary index `minExpandingWindow - 1` is still warm-up); for
non-warm-up rows the expanding median is over the tickMove entries in
`[0, i]` with the first row's null participating as 0 (`medAt`), the MAD is
over the non-null entries (`madAt`), and
`isOutlier = |tickMove - medAt| > outlierMadThreshold * max(madAt,
minOutlierTicks)`. -/
theorem claim_C1_outlier_classification (prims : Prims) (cfg : Config)
    (d1 d2 : List RawBar) (hmw : 1 ≤ cfg.minExpandingWindow)
    (hmt : 0 ≤ cfg.minOutlierTicks) (i : Nat)
    (hi : i < (loadAndMerge prims cfg d1 d2).bars.length) :
    (((loadAndMerge prims cfg d1 d2).bars.getD i default).isWarmup
        = decide (i < cfg.minExpandingWindow)) ∧
    (∀ t : Int, cfg.minExpandingWindow ≤ i →
      ((loadAndMerge prims cfg d1 d2).bars.getD i default).tickMove = some t →
      (((loadAndMerge prims cfg d1 d2).bars.getD i default).isOutlier
        = decide (cfg.outlierMadThreshold *
            max (madAt ((loadAndMerge prims cfg d1 d2).bars.map (fun b => b.tickMove)) i)
              cfg.minOutlierTicks
          < |(t : ℚ) - medAt ((loadAndMerge prims cfg d1 d2).bars.map (fun b => b.tickMove)) i|))) := by
  have hbars : (loadAndMerge prims cfg d1 d2).bars
      = markOutliers cfg (markConsecutive cfg (rawBars cfg.tickSize (mergedRows d1 d2))) := rfl
  rcases hrows : mergedRows d1 d2 with _ | ⟨r, rest⟩
  · rw [hbars, hrows] at hi
    simp [markOutliers, markConsecutive, rawBars, rawBarsAux, mapWithIndex] at hi
  · set bars1 := markConsecutive cfg (rawBars cfg.tickSize (r :: rest)) with hbars1
    have hbars' : (loadAndMerge prims cfg d1 d2).bars = markOutliers cfg bars1 := by
      rw [hbars, hrows]
    obtain ⟨l, hshape⟩ := tms_shape cfg r rest
    have htmsfinal : (loadAndMerge prims cfg d1 d2).bars.map (fun b => b.tickMove)
        = (none : Option Int) :: l.map some := by
      rw [hbars', tickMove_markOutliers]
      exact hshape
    have hlen1 : (loadAndMerge prims cfg d1 d2).bars.length = bars1.length := by
      rw [hbars']
      unfold markOutliers
      exact length_mapWithIndex _ 0 bars1
    have hi1 : i < bars1.length := by rw [← hlen1]; exact hi
    have htms1 : bars1.map (fun b => b.tickMove) = (none : Option Int) :: l.map some := hshape
    have hishape : i < ((none : Option Int) :: l.map some).length := by
      rw [← htms1]
      simpa using hi1
    have hget : (loadAndMerge prims cfg d1 d2).bars.getD i default =
        { bars1.getD i default with
            isWarmup := warmupFlag ((none : Option Int) :: l.map some)
              cfg.minExpandingWindow i,
            isOutlier := outlierFlag cfg ((none : Option Int) :: l.map some) i
              (bars1.getD i default).tickMove } := by
      rw [hbars', getD_markOutliers cfg bars1 i hi1, htms1]
    constructor
    · rw [hget]
      show warmupFlag ((none : Option Int) :: l.map some) cfg.minExpandingWindow i
        = decide (i < cfg.minExpandingWindow)
      exact warmupFlag_shape hmw hishape
    · intro t hge htm
      rw [hget] at htm ⊢
      have htm' : (bars1.getD i default).tickMove = some t := htm
      show outlierFlag cfg ((none : Option Int) :: l.map some) i
          (bars1.getD i default).tickMove = _
      rw [htm', outlierFlag_shape hmw hmt hishape hge, htmsfinal]

/-- Witness for the amended C1 theorem at the concrete three-bar run, index 2. -/
theorem claim_C1_outlier_classification_witness :
    (1 ≤ cexCfg.minExpandingWindow ∧ 0 ≤ cexCfg.minOutlierTicks ∧
      2 < (loadAndMerge prims0 cexCfg cexLeg1 cexLeg2).bars.length) ∧
    ((((loadAndMerge prims0 cexCfg cexLeg1 cexLeg2).bars.getD 2 default).isWarmup
        = decide (2 < cexCfg.minExpandingWindow)) ∧
     (∀ t : Int, cexCfg.minExpandingWindow ≤ 2 →
       (((loadAndMerge prims0 cexCfg cexLeg1 cexLeg2).bars.getD 2 default).tickMove = some t) →
       ((((loadAndMerge prims0 cexCfg cexLeg1 cexLeg2).bars.getD 2 default).isOutlier
         = decide (cexCfg.outlierMadThreshold *
             max (madAt ((loadAndMerge prims0 cexCfg cexLeg1 cexLeg2).bars.map
                 (fun b => b.tickMove)) 2)
               cexCfg.minOutlierTicks
           < |(t : ℚ) - medAt ((loadAndMerge prims0 cexCfg cexLeg1 cexLeg2).bars.map
                 (fun b => b.tickMove)) 2|))))) := by
  have h1 : 1 ≤ cexCfg.minExpandingWindow := by norm_num [cexCfg, defaultConfig]
  have h2 : (0:ℚ) ≤ cexCfg.minOutlierTicks := by norm_num [cexCfg, defaultConfig]
  have h3 : 2 < (loadAndMerge prims0 cexCfg cexLeg1 cexLeg2).bars.length := by
    have hb : (loadAndMerge prims0 cexCfg cexLeg1 cexLeg2).bars = cexBars := rfl
    rw [hb, cexBars_eval]
    norm_num
  exact ⟨⟨h1, h2, h3⟩, claim_C1_outlier_classification prims0 cexCfg cexLeg1 cexLeg2 h1 h2 2 h3⟩

/-! ### C3: bootstrap determinism -/

/-- C3: the bootstrap is deterministic.  `calculateBootstrap` is a pure
function of the seed, the valid set and the config (iteration count and tick
levels): the only stochastic ingredient of the source, the mulberry32
generator, is itself a pure function of the threaded seed, so two runs on
equal inputs produce identical means and identical 2.5th/97.5th percentile
endpoints for abs/up/down at every tick level. -/
theorem claim_C3_bootstrap_deterministic (cfg1 cfg2 : Config) (n1 n2 s1 s2 : Nat)
    (v1 v2 : List Bar) (hc : cfg1 = cfg2) (hn : n1 = n2) (hs : s1 = s2) (hv : v1 = v2) :
    calculateBootstrap cfg1 n1 s1 v1 = calculateBootstrap cfg2 n2 s2 v2 := by
  subst hc
  subst hn
  subst hs
  subst hv
  rfl

/-- Witness for C3 at the default config, 2 iterations, seed 42, the
concrete three-bar valid set. -/
theorem claim_C3_bootstrap_deterministic_witness :
    defaultConfig = defaultConfig ∧ (2 : Nat) = 2 ∧ (42 : Nat) = 42 ∧ cexBars = cexBars ∧
    calculateBootstrap defaultConfig 2 42 cexBars = calculateBootstrap defaultConfig 2 42 cexBars :=
  ⟨rfl, rfl, rfl, rfl,
   claim_C3_bootstrap_deterministic defaultConfig defaultConfig 2 2 42 42 cexBars cexBars
     rfl rfl rfl rfl⟩

/-! ### C4: conditional transitions use original rowId adjacency -/

/-- C4: the transition list built by `calculateConditional` consists of the
tickMove pairs of positionally adjacent `validSet` entries exactly at the
positions where `next.rowId - curr.rowId = 1` on the original merged-row
index — so a removed outlier or warm-up row between two valid rows breaks
adjacency and excludes that pair. -/
theorem claim_C4_transition_adjacency (valid : List Bar) :
    buildTransitions valid =
      ((valid.zip valid.tail).filter
        (fun p => decide ((p.2.rowId : Int) - (p.1.rowId : Int) = 1))).map
        (fun p => (p.1.tickMove, p.2.tickMove)) := by
  induction valid with
  | nil => rfl
  | cons a rest ih =>
    cases rest with
    | nil => rfl
    | cons b rest2 =>
      by_cases hd : (b.rowId : Int) - (a.rowId : Int) = 1
      · simp only [buildTransitions, List.tail_cons, List.zip_cons_cons, List.filter_cons,
          decide_eq_true_eq, hd, if_pos, List.map_cons]
        rw [ih]
        simp
      · simp only [buildTransitions, List.tail_cons, List.zip_cons_cons, List.filter_cons,
          decide_eq_true_eq, hd, if_neg, List.map_cons]
        rw [ih]
        simp [hd]

/-! ### C10: streak analysis sample gate -/

/-- C10: `calculateStreaks` returns the empty result exactly when the valid
set has fewer than 3 rows; with 3 or more rows it returns the per-direction
streak statistics. -/
theorem claim_C10_streaks_gate (prims : Prims) (valid : List Bar) :
    calculateStreaks prims valid = none ↔ valid.length < 3 := by
  by_cases h : valid.length < 3 <;> simp [calculateStreaks, h]

/-! ### C8: insufficient-sample gating omits sections -/

/-- C8: each insufficient-sample gate acts independently, each under its own
hypothesis alone: a conditional branch with fewer than `minConditionalSamples`
transitions is absent (even if the opposite branch is well-sampled); a
weekday bucket with fewer than 5 samples is absent (whatever the size of the
valid set); the distribution test suite is empty below 10 raw samples; the
recent-vs-historical comparison is empty below 60 valid rows.  Absence is
`none`, not a zero-filled block. -/
theorem claim_C8_sample_gating (prims : Prims) (cfg : Config) (valid raw : List Bar)
    (d : Int) :
    ((upTransOf valid).length < cfg.minConditionalSamples →
      (calculateConditional cfg valid).afterUpMove = none) ∧
    ((downTransOf valid).length < cfg.minConditionalSamples →
      (calculateConditional cfg valid).afterDownMove = none) ∧
    ((valid.filter (fun r => jsGetDay r.time == d)).length < 5 →
      calculateWeekdayProbs prims valid d = none) ∧
    (raw.length < 10 → calculateStats prims raw = none) ∧
    (valid.length < 60 → calculateRecentComparison prims valid = none) := by
  refine ⟨?_, ?_, ?_, ?_, ?_⟩
  · intro h1
    simp only [calculateConditional]
    rw [if_neg (by omega)]
  · intro h2
    simp only [calculateConditional]
    rw [if_neg (by omega)]
  · intro h3
    by_cases hv : valid.length = 0
    · simp [calculateWeekdayProbs, hv]
    · simp only [calculateWeekdayProbs]
      rw [if_neg hv, if_neg (by omega)]
  · intro h4
    simp only [calculateStats, List.length_map]
    rw [if_pos h4]
  · intro h5
    simp only [calculateRecentComparison]
    rw [if_pos h5]

/-- Witness for C8 on the empty sets and weekday 0 with the default config,
discharging each gate's antecedent separately. -/
theorem claim_C8_sample_gating_witness :
    (calculateConditional defaultConfig []).afterUpMove = none ∧
    (calculateConditional defaultConfig []).afterDownMove = none ∧
    calculateWeekdayProbs prims0 [] 0 = none ∧
    calculateStats prims0 [] = none ∧
    calculateRecentComparison prims0 [] = none :=
  ⟨(claim_C8_sample_gating prims0 defaultConfig [] [] 0).1 (by decide),
   (claim_C8_sample_gating prims0 defaultConfig [] [] 0).2.1 (by decide),
   (claim_C8_sample_gating prims0 defaultConfig [] [] 0).2.2.1 (by decide),
   (claim_C8_sample_gating prims0 defaultConfig [] [] 0).2.2.2.1 (by decide),
   (claim_C8_sample_gating prims0 defaultConfig [] [] 0).2.2.2.2 (by decide)⟩

/-! ### C9: empty or non-overlapping inputs -/

/-- C9: if either leg is empty or the inner join produces zero rows, the
model has empty `allBars`/`rawSet`/`validSet` and zeroed aggregates (counts,
total volume, spread mean/stdev/min/max).  The embedding is a total function,
so the pass never raises. -/
theorem claim_C9_empty_inputs (prims : Prims) (cfg : Config) (d1 d2 : List RawBar)
    (h : d1 = [] ∨ d2 = [] ∨ mergedRows d1 d2 = []) :
    (loadAndMerge prims cfg d1 d2).bars = [] ∧
    dfRawOf (loadAndMerge prims cfg d1 d2).bars = [] ∧
    dfValidOf (loadAndMerge prims cfg d1 d2).bars = [] ∧
    (loadAndMerge prims cfg d1 d2).nValid = 0 ∧
    (loadAndMerge prims cfg d1 d2).nRaw = 0 ∧
    (loadAndMerge prims cfg d1 d2).nOutliers = 0 ∧
    (loadAndMerge prims cfg d1 d2).nWarmup = 0 ∧
    (loadAndMerge prims cfg d1 d2).totalVolume = 0 ∧
    (loadAndMerge prims cfg d1 d2).spreadStats =
      { mean := 0, std := 0, min := 0, max := 0 } := by
  have hrows : mergedRows d1 d2 = [] := by
    rcases h with h | h | h
    · subst h; rfl
    · subst h
      unfold mergedRows
      have hlk : ∀ p : Int × RawBar, (lookupDay p.1 (dedupByDay [])).map (fun r2 =>
          ({ time := p.2.time, dateKey := p.1, close1 := p.2.close, close2 := r2.close,
             volume1 := p.2.volume, volume2 := r2.volume } : MergedRaw)) = none := by
        intro p; rfl
      simp only [hlk]
      rw [List.filterMap_eq_nil_iff.mpr (fun a _ => rfl)]
      rfl
    · exact h
  have hb : barsOf cfg d1 d2 = [] := by
    unfold barsOf
    rw [hrows]
    rfl
  have hbars : (loadAndMerge prims cfg d1 d2).bars = [] := hb
  refine ⟨hbars, ?_, ?_, ?_, ?_, ?_, ?_, ?_, ?_⟩
  · rw [hbars]
    rfl
  · rw [hbars]
    rfl
  · show (dfValidOf (barsOf cfg d1 d2)).length = 0
    rw [hb]
    rfl
  · show (dfRawOf (barsOf cfg d1 d2)).length = 0
    rw [hb]
    rfl
  · show ((barsOf cfg d1 d2).filter (fun r => r.isOutlier)).length = 0
    rw [hb]
    rfl
  · show ((barsOf cfg d1 d2).filter (fun r => r.isWarmup)).length = 0
    rw [hb]
    rfl
  · show listSum ((barsOf cfg d1 d2).map (fun r => r.spreadVolume)) = 0
    rw [hb]
    rfl
  · show (if ((barsOf cfg d1 d2).map (fun r => r.spreadClose)).length = 0 then
        ({ mean := 0, std := 0, min := 0, max := 0 } : SpreadStats)
      else
        { mean := meanQ ((barsOf cfg d1 d2).map (fun r => r.spreadClose))
          std := prims.sqrtq (sampleVarQ ((barsOf cfg d1 d2).map (fun r => r.spreadClose)))
          min := listMinQ ((barsOf cfg d1 d2).map (fun r => r.spreadClose))
          max := listMaxQ ((barsOf cfg d1 d2).map (fun r => r.spreadClose)) })
      = { mean := 0, std := 0, min := 0, max := 0 }
    rw [hb]
    rfl

/-- Witness for C9 on two empty legs. -/
theorem claim_C9_empty_inputs_witness :
    (([] : List RawBar) = [] ∨ ([] : List RawBar) = [] ∨ mergedRows [] [] = []) ∧
    ((loadAndMerge prims0 defaultConfig [] []).bars = [] ∧
     dfRawOf (loadAndMerge prims0 defaultConfig [] []).bars = [] ∧
     dfValidOf (loadAndMerge prims0 defaultConfig [] []).bars = [] ∧
     (loadAndMerge prims0 defaultConfig [] []).nValid = 0 ∧
     (loadAndMerge prims0 defaultConfig [] []).nRaw = 0 ∧
     (loadAndMerge prims0 defaultConfig [] []).nOutliers = 0 ∧
     (loadAndMerge prims0 defaultConfig [] []).nWarmup = 0 ∧
     (loadAndMerge prims0 defaultConfig [] []).totalVolume = 0 ∧
     (loadAndMerge prims0 defaultConfig [] []).spreadStats =
       { mean := 0, std := 0, min := 0, max := 0 }) :=
  ⟨Or.inl rfl, claim_C9_empty_inputs prims0 defaultConfig [] [] (Or.inl rfl)⟩

/-! ### C7: the analysis passes and the model -/

theorem applyAnnotations_erase :
    ∀ (bars : List Bar) (pred : Bar → Bool) (anns : List (Int × Bool × Bool)),
      (applyAnnotations bars pred anns).map eraseAnnotations = bars.map eraseAnnotations := by
  intro bars
  induction bars with
  | nil => intro pred anns; rfl
  | cons b rest ih =>
    intro pred anns
    by_cases hp : pred b = true
    · cases anns with
      | nil => simp [applyAnnotations, hp, ih]
      | cons a arest => simp [applyAnnotations, hp, ih, eraseAnnotations]
    · simp [applyAnnotations, hp, ih]

theorem srAnnotate_erase (cfg : Config) (bars : List Bar) :
    (srAnnotate cfg bars).map eraseAnnotations = bars.map eraseAnnotations := by
  cases h : bars.getLast? with
  | none => simp [srAnnotate, h]
  | some lastBar => simp [srAnnotate, h, applyAnnotations_erase]

/-- C7, amended.  Ten of the eleven analysis passes (probabilities,
volume-weighted, bootstrap, conditional, stats, streaks, range, expected
value, weekday, recent comparison) leave the model untouched.
`calculateSupportResistance`, however, writes the lazy annotation fields
`tickIdx`, `isSwingHigh`, `isSwingLow` onto the shared bar objects: its pass
preserves every *other* field of every bar (and every stored aggregate), but
not the bars themselves. -/
theorem claim_C7_analysis_frame (prims : Prims) (cfg : Config) (nIter seed : Nat)
    (d : Int) (m : Model) :
    (empiricalPass prims cfg m).1 = m ∧
    (volumeWeightedPass cfg m).1 = m ∧
    (bootstrapPass cfg nIter seed m).1 = m ∧
    (conditionalPass cfg m).1 = m ∧
    (statsPass prims m).1 = m ∧
    (streaksPass prims m).1 = m ∧
    (rangePass prims cfg m).1 = m ∧
    (expectedValuePass prims m).1 = m ∧
    (weekdayPass prims d m).1 = m ∧
    (recentComparisonPass prims m).1 = m ∧
    ((supportResistancePass cfg m).bars.map eraseAnnotations =
        m.bars.map eraseAnnotations ∧
      (supportResistancePass cfg m).nValid = m.nValid ∧
      (supportResistancePass cfg m).nRaw = m.nRaw ∧
      (supportResistancePass cfg m).nOutliers = m.nOutliers ∧
      (supportResistancePass cfg m).nWarmup = m.nWarmup ∧
      (supportResistancePass cfg m).totalVolume = m.totalVolume ∧
      (supportResistancePass cfg m).spreadStats = m.spreadStats) :=
  ⟨rfl, rfl, rfl, rfl, rfl, rfl, rfl, rfl, rfl, rfl,
   srAnnotate_erase cfg m.bars, rfl, rfl, rfl, rfl, rfl, rfl⟩

/-- C7 counterexample: on the concrete three-bar model, running the
support/resistance pass changes the model — it assigns `tickIdx` (and the
swing flags) to the bars, so "every field of every bar is unchanged by every
analysis operation" is false. -/
theorem claim_C7_counterexample :
    supportResistancePass cexCfg (loadAndMerge prims0 cexCfg cexLeg1 cexLeg2)
      ≠ loadAndMerge prims0 cexCfg cexLeg1 cexLeg2 := by
  intro h
  have hL : (((supportResistancePass cexCfg
        (loadAndMerge prims0 cexCfg cexLeg1 cexLeg2)).bars.getD 0 default).tickIdx)
      = some 0 := by
    show ((srAnnotate cexCfg cexBars).getD 0 default).tickIdx = some 0
    rw [cexBars_eval]
    norm_num [srAnnotate, applyAnnotations, swingFlags, mapWithIndex, jsRound,
      cexCfg, defaultConfig]
  have hR : (((loadAndMerge prims0 cexCfg cexLeg1 cexLeg2).bars.getD 0 default).tickIdx)
      = none := by
    show ((cexBars).getD 0 default).tickIdx = none
    rw [cexBars_eval]
    rfl
  rw [h, hR] at hL
  cases hL

/-! ### C6: up and down probabilities -/

/-- C6: for every non-empty bar set handed to the probability engine and
every configured tick level `n ≥ 1`,
`probUpAtLeast(n) + probDownAtLeast(n) ≤ 1` (`computeProbs` reports
`countUpIn/len` and `countDownIn/len` for these fields), and equality forces
every row's tickMove to satisfy `|tickMove| ≥ n` — i.e. equality only if no
move with `|tickMove| < n` exists in the set. -/
theorem claim_C6_up_down_sum (prims : Prims) (cfg : Config) (data : List Bar) (nt : Int)
    (hne : data ≠ []) (hpos : 1 ≤ nt) :
    (∀ q ∈ (computeProbs prims cfg data).levels,
      q.2.probUpAtLeast = (countUpIn data q.1 : ℚ) / data.length ∧
      q.2.probDownAtLeast = (countDownIn data q.1 : ℚ) / data.length) ∧
    (countUpIn data nt : ℚ) / data.length + (countDownIn data nt : ℚ) / data.length ≤ 1 ∧
    ((countUpIn data nt : ℚ) / data.length + (countDownIn data nt : ℚ) / data.length = 1 →
      ∀ r ∈ data, ∀ t : Int, r.tickMove = some t → nt ≤ |t|) := by
  have hlen : 0 < data.length := List.length_pos.mpr hne
  have hdisj : ∀ r ∈ data,
      ¬((fun r => decide (nt ≤ jsNumZ r.tickMove)) r = true ∧
        (fun r => decide (jsNumZ r.tickMove ≤ -nt)) r = true) := by
    intro r _ hc
    simp only [decide_eq_true_eq] at hc
    omega
  have hpart := countP_partition (fun r => decide (nt ≤ jsNumZ r.tickMove))
    (fun r => decide (jsNumZ r.tickMove ≤ -nt)) data hdisj
  simp only at hpart
  have hup : countUpIn data nt = data.countP (fun r => decide (nt ≤ jsNumZ r.tickMove)) := rfl
  have hdn : countDownIn data nt
      = data.countP (fun r => decide (jsNumZ r.tickMove ≤ -nt)) := rfl
  have hsum : (countUpIn data nt : ℚ) / data.length + (countDownIn data nt : ℚ) / data.length
      = ((countUpIn data nt + countDownIn data nt : Nat) : ℚ) / data.length := by
    push_cast
    rw [div_add_div_same]
  have hle : countUpIn data nt + countDownIn data nt ≤ data.length := by omega
  refine ⟨?_, ?_, ?_⟩
  · intro q hq
    rw [computeProbs, if_neg (by omega)] at hq
    simp only at hq
    obtain ⟨ntq, _, rfl⟩ := List.mem_map.mp hq
    exact ⟨rfl, rfl⟩
  · rw [hsum, div_le_one (by exact_mod_cast hlen)]
    exact_mod_cast hle
  · intro heq r hr t ht
    have heqn : countUpIn data nt + countDownIn data nt = data.length := by
      rw [hsum, div_eq_one_iff_eq (by positivity)] at heq
      exact_mod_cast heq
    have hfil : (data.filter (fun r =>
        !decide (nt ≤ jsNumZ r.tickMove) && !decide (jsNumZ r.tickMove ≤ -nt))).length = 0 := by
      omega
    have hnil := List.length_eq_zero.mp hfil
    have hall := List.filter_eq_nil_iff.mp hnil r hr
    simp only [Bool.and_eq_true, Bool.not_eq_true', decide_eq_false_iff_not, not_and,
      not_not] at hall
    have hz : jsNumZ r.tickMove = t := by rw [ht]; rfl
    rcases Decidable.em (nt ≤ jsNumZ r.tickMove) with hca | hca
    · rw [hz] at hca
      rw [le_abs]
      exact Or.inl hca
    · have := hall (by simpa using hca)
      rw [hz] at this
      rw [le_abs]
      right
      omega

/-- Witness for C6: one bar with tickMove 5 at level 1. -/
theorem claim_C6_up_down_sum_witness :
    ([{ (default : Bar) with tickMove := some 5 }] ≠ ([] : List Bar) ∧ (1 : Int) ≤ 1) ∧
    ((∀ q ∈ (computeProbs prims0 defaultConfig
          [{ (default : Bar) with tickMove := some 5 }]).levels,
      q.2.probUpAtLeast = (countUpIn [{ (default : Bar) with tickMove := some 5 }] q.1 : ℚ) /
        (List.length [{ (default : Bar) with tickMove := some 5 }]) ∧
      q.2.probDownAtLeast =
        (countDownIn [{ (default : Bar) with tickMove := some 5 }] q.1 : ℚ) /
        (List.length [{ (default : Bar) with tickMove := some 5 }])) ∧
     (countUpIn [{ (default : Bar) with tickMove := some 5 }] 1 : ℚ) /
        (List.length [{ (default : Bar) with tickMove := some 5 }]) +
      (countDownIn [{ (default : Bar) with tickMove := some 5 }] 1 : ℚ) /
        (List.length [{ (default : Bar) with tickMove := some 5 }]) ≤ 1 ∧
     ((countUpIn [{ (default : Bar) with tickMove := some 5 }] 1 : ℚ) /
        (List.length [{ (default : Bar) with tickMove := some 5 }]) +
      (countDownIn [{ (default : Bar) with tickMove := some 5 }] 1 : ℚ) /
        (List.length [{ (default : Bar) with tickMove := some 5 }]) = 1 →
      ∀ r ∈ [{ (default : Bar) with tickMove := some 5 }], ∀ t : Int,
        r.tickMove = some t → 1 ≤ |t|)) :=
  ⟨⟨List.cons_ne_nil _ _, by decide⟩,
   claim_C6_up_down_sum prims0 defaultConfig
     [{ (default : Bar) with tickMove := some 5 }] 1
     (List.cons_ne_nil _ _) (by decide)⟩

/-- C5: for `0 ≤ s ≤ n`, `n > 0` and a nonnegative `z`, the Wilson interval
contains the point estimate `s/n` and lies within `[0, 1]` with ordered
endpoints. -/
theorem claim_C5_wilson_interval (s n : Nat) (z : ℝ)
    (hn : 0 < n) (hs : s ≤ n) (hz : 0 ≤ z) :
    (wilsonCI s n z).1 ≤ (s : ℝ) / n ∧ (s : ℝ) / n ≤ (wilsonCI s n z).2 ∧
    0 ≤ (wilsonCI s n z).1 ∧ (wilsonCI s n z).2 ≤ 1 ∧
    (wilsonCI s n z).1 ≤ (wilsonCI s n z).2 := by
  have hN : (0:ℝ) < n := by exact_mod_cast hn
  have hN0 : (n:ℝ) ≠ 0 := ne_of_gt hN
  rw [wilsonCI, if_neg (Nat.pos_iff_ne_zero.mp hn)]
  simp only
  set p : ℝ := (s:ℝ) / (n:ℝ) with hp
  have hp0 : 0 ≤ p := by positivity
  have hp1 : p ≤ 1 := by rw [hp, div_le_one hN]; exact_mod_cast hs
  set denom : ℝ := 1 + z ^ 2 / (n:ℝ) with hdenom
  have hden : 0 < denom := by positivity
  have hden0 : denom ≠ 0 := ne_of_gt hden
  set E : ℝ := p * (1 - p) / (n:ℝ) + z ^ 2 / (4 * (n:ℝ) * (n:ℝ)) with hE
  have hpp : 0 ≤ p * (1 - p) := mul_nonneg hp0 (by linarith)
  have hEnn : 0 ≤ E := by
    rw [hE]
    positivity
  set center : ℝ := (p + z ^ 2 / (2 * (n:ℝ))) / denom with hcenter
  set margin : ℝ := (z / denom) * Real.sqrt E with hmargin
  have hmnn : 0 ≤ margin := mul_nonneg (div_nonneg hz hden.le) (Real.sqrt_nonneg _)
  have hsq : margin ^ 2 = z ^ 2 / denom ^ 2 * E := by
    rw [hmargin, mul_pow, Real.sq_sqrt hEnn, div_pow]
  have hcp : center - p = z ^ 2 * (1 / 2 - p) / ((n:ℝ) * denom) := by
    rw [hcenter, hdenom]
    field_simp
    ring
  have hfact : z ^ 2 / denom ^ 2 * E - (z ^ 2 * (1 / 2 - p) / ((n:ℝ) * denom)) ^ 2
      = (z ^ 2 / denom ^ 2) * (p * (1 - p)) * (1 / (n:ℝ) + z ^ 2 / ((n:ℝ) * (n:ℝ))) := by
    rw [hE, hdenom]
    field_simp
    ring
  have hkey : (center - p) ^ 2 ≤ margin ^ 2 := by
    rw [hsq, hcp]
    have hrhs : 0 ≤ (z ^ 2 / denom ^ 2) * (p * (1 - p)) * (1 / (n:ℝ) + z ^ 2 / ((n:ℝ) * (n:ℝ))) := by
      have h1 : (0:ℝ) ≤ z ^ 2 / denom ^ 2 := by positivity
      have h2 : (0:ℝ) ≤ 1 / (n:ℝ) + z ^ 2 / ((n:ℝ) * (n:ℝ)) := by positivity
      exact mul_nonneg (mul_nonneg h1 hpp) h2
    linarith [hfact]
  have h1 : center - p ≤ margin := by
    nlinarith [hkey, hmnn, sq_nonneg (center - p - margin), sq_nonneg (center - p + margin)]
  have h2 : p - center ≤ margin := by
    nlinarith [hkey, hmnn, sq_nonneg (center - p - margin), sq_nonneg (center - p + margin)]
  refine ⟨?_, ?_, ?_, ?_, ?_⟩
  · exact max_le (by linarith) (by linarith)
  · exact le_min (by linarith) (by linarith)
  · exact le_max_left _ _
  · exact min_le_left _ _
  · exact le_trans (max_le (by linarith) (by linarith) : max 0 (center - margin) ≤ p)
      (le_min (by linarith) (by linarith) : p ≤ min 1 (center + margin))

/-- Witness for C5 at `s = 1`, `n = 2`, `z = 2`. -/
theorem claim_C5_wilson_interval_witness :
    ((0 : Nat) < 2 ∧ (1 : Nat) ≤ 2 ∧ (0 : ℝ) ≤ 2) ∧
    ((wilsonCI 1 2 2).1 ≤ ((1 : Nat) : ℝ) / ((2 : Nat) : ℝ) ∧
     ((1 : Nat) : ℝ) / ((2 : Nat) : ℝ) ≤ (wilsonCI 1 2 2).2 ∧
     0 ≤ (wilsonCI 1 2 2).1 ∧ (wilsonCI 1 2 2).2 ≤ 1 ∧
     (wilsonCI 1 2 2).1 ≤ (wilsonCI 1 2 2).2) :=
  ⟨⟨by decide, by decide, zero_le_two⟩,
   claim_C5_wilson_interval 1 2 2 (by decide) (by decide) zero_le_two⟩

end SpreadCalc
